import Mathlib

/-
  Verification development for the normalization / validation / routing core of
  the invoice document-processing pipeline (src/schema.py, src/normalizer.py,
  src/validator.py).

  Python values flowing through the pipeline are modelled by `PyVal`
  (None, strings, and numbers — numbers as exact rationals).  Fallible Python
  code (pydantic construction, `float()` coercion) is modelled in the
  `Except String` monad, the error string standing for the raised exception.
-/

namespace IDP

/-- Scalar values inside a raw line-item mapping.  The item dicts this
pipeline sees are flat mappings of scalars (see the adapter's
_extract_line_items), so nested containers are out of scope of the
model. -/
inductive PyScalar where
  | none
  | str (s : String)
  | num (q : ℚ)
  deriving DecidableEq

/-- Model of the Python values that flow through the pipeline: None, str
and numeric values (floats modelled as exact rationals), plus the flat
item dicts stored verbatim as line-item audit values. -/
inductive PyVal where
  | none
  | str (s : String)
  | num (q : ℚ)
  | dict (entries : List (String × PyScalar))
  deriving DecidableEq

/-- Embedding of an item scalar into the general value type. -/
def PyScalar.toVal : PyScalar → PyVal
  | PyScalar.none => PyVal.none
  | PyScalar.str s => PyVal.str s
  | PyScalar.num q => PyVal.num q

/-- Python truthiness for the modelled values: None is falsy, a string is
truthy iff non-empty, a number is truthy iff non-zero, a dict is truthy
iff non-empty. -/
def PyVal.truthy : PyVal → Bool
  | PyVal.none => false
  | PyVal.str s => decide (s ≠ "")
  | PyVal.num q => decide (q ≠ 0)
  | PyVal.dict entries => decide (entries ≠ [])

/-- Digits of a numeral read into a natural number (no validation here). -/
def natOfDigits (cs : List Char) : ℕ :=
  cs.foldl (fun acc c => acc * 10 + (c.toNat - 48)) 0

/-- All characters are decimal digits. -/
def allDigits (cs : List Char) : Bool := cs.all Char.isDigit

/-- Acceptance and value of an unsigned decimal numeral, with an optional
decimal point, as accepted by Python float().  Rejects the empty string,
a lone dot and any non-digit character. -/
def parseUnsignedDecimal (cs : List Char) : Option ℚ :=
  match cs.span (fun c => c != '.') with
  | (intPart, []) =>
      if !intPart.isEmpty && allDigits intPart then some ((natOfDigits intPart : ℚ))
      else Option.none
  | (intPart, _ :: fracPart) =>
      if (!intPart.isEmpty || !fracPart.isEmpty) && allDigits intPart && allDigits fracPart then
        some ((natOfDigits intPart : ℚ) + (natOfDigits fracPart : ℚ) / ((10 : ℚ) ^ fracPart.length))
      else Option.none

/-- Model of Python float(s) on a string: an optional sign then a decimal
numeral (exponent forms and surrounding whitespace are out of scope of the
inputs this pipeline sees). -/
def pyFloatOfString (s : String) : Option ℚ :=
  match s.toList with
  | '-' :: rest => (parseUnsignedDecimal rest).map (fun q => -q)
  | '+' :: rest => parseUnsignedDecimal rest
  | cs => parseUnsignedDecimal cs

/-- Model of Python float(v): identity on numbers, parse on strings
(ValueError on failure), TypeError on None and on dicts. -/
def pyFloat : PyVal → Except String ℚ
  | PyVal.num q => Except.ok q
  | PyVal.str s =>
      match pyFloatOfString s with
      | some q => Except.ok q
      | Option.none => Except.error ("ValueError: could not convert string to float: " ++ s)
  | PyVal.none => Except.error "TypeError: float() argument must be a string or a real number"
  | PyVal.dict _ => Except.error "TypeError: float() argument must be a string or a real number"

/-- Model of the normalizer's try float(value) except (ValueError, TypeError),
yielding an optional number. -/
def pyFloatValue (v : PyVal) : Option ℚ :=
  match pyFloat v with
  | Except.ok q => some q
  | Except.error _ => Option.none

/-- Whether the Except computation succeeded. -/
def exceptOk {α : Type} : Except String α → Bool
  | Except.ok _ => true
  | Except.error _ => false

/-- Pydantic lax coercion of a field typed float: numbers pass, numeric
strings parse, anything else fails validation. -/
def pydanticFloat (v : PyVal) : Except String ℚ :=
  match pyFloat v with
  | Except.ok q => Except.ok q
  | Except.error _ => Except.error "ValidationError: input is not a valid number"

/-- Pydantic coercion of a field typed Optional float: None passes
through. -/
def pydanticOptFloat (v : PyVal) : Except String (Option ℚ) :=
  match v with
  | PyVal.none => Except.ok Option.none
  | v => (pydanticFloat v).map some

/-- Pydantic validation of a field typed str. -/
def pydanticStr (v : PyVal) : Except String String :=
  match v with
  | PyVal.str s => Except.ok s
  | _ => Except.error "ValidationError: input is not a valid string"

/-- Model of Python str(v) as used on currency values (numeric repr
modelled by the rational's string form; the dict repr by an opaque
stand-in that, like the real repr, is never a whitelisted currency). -/
def pyStr : PyVal → String
  | PyVal.none => "None"
  | PyVal.str s => s
  | PyVal.num q => toString q
  | PyVal.dict _ => "<dict>"

/-- ASCII upper-casing of one character. -/
def upChar (c : Char) : Char :=
  if c.isLower then Char.ofNat (c.toNat - 32) else c

/-- Model of Python str.upper() on the ASCII identifiers this pipeline
sees. -/
def asciiUpper (s : String) : String :=
  String.mk (s.toList.map upChar)

/-- Evidence for an extracted field (schema.py Evidence; bbox and text anchor
are never populated by this normalizer and are omitted). -/
structure Evidence where
  pageNumber : ℤ
  deriving DecidableEq

/-- Audit information for a single extracted field (schema.py FieldAudit). -/
structure FieldAudit where
  value : PyVal
  confidence : ℚ
  evidence : Option Evidence
  pipelineVersion : String
  vendorVersion : String
  vendorFieldName : Option String
  deriving DecidableEq

/-- Pydantic construction of FieldAudit: the confidence field carries the
constraint ge=0.0, le=1.0, so construction raises a ValidationError when the
vendor-reported confidence lies outside the unit interval. -/
def mkFieldAudit (value : PyVal) (confidence : ℚ) (evidence : Option Evidence)
    (pipelineVersion vendorVersion : String) (vendorFieldName : Option String) :
    Except String FieldAudit :=
  if 0 ≤ confidence ∧ confidence ≤ 1 then
    Except.ok ⟨value, confidence, evidence, pipelineVersion, vendorVersion, vendorFieldName⟩
  else Except.error "ValidationError: confidence must be between 0.0 and 1.0"

/-- Line item from invoice (schema.py LineItem). -/
structure LineItem where
  description : String
  quantity : Option ℚ
  unitPrice : Option ℚ
  amount : ℚ
  audit : FieldAudit
  deriving DecidableEq

/-- Pydantic construction of LineItem: description must be a string,
quantity and unit_price optional floats, amount a required float — a
non-coercible input raises a ValidationError. -/
def mkLineItem (description quantity unitPrice amount : PyVal) (audit : FieldAudit) :
    Except String LineItem :=
  (pydanticStr description).bind fun d =>
  (pydanticOptFloat quantity).bind fun q =>
  (pydanticOptFloat unitPrice).bind fun up =>
  (pydanticFloat amount).bind fun a =>
  Except.ok ⟨d, q, up, a, audit⟩

/-- A raw line-item mapping from the vendor output: a flat dict of
scalars. -/
abbrev RawItem := List (String × PyScalar)

/-- Canonical invoice record (schema.py InvoiceSchema); the nine optional
FieldAudit slots, the optional line items and the metadata.  The raw
vendor output is not inspected downstream and is omitted from the
model. -/
structure InvoiceSchema where
  invoiceNumber : Option FieldAudit
  invoiceDate : Option FieldAudit
  supplierName : Option FieldAudit
  supplierId : Option FieldAudit
  currency : Option FieldAudit
  subtotal : Option FieldAudit
  tax : Option FieldAudit
  total : Option FieldAudit
  poNumber : Option FieldAudit
  lineItems : Option (List LineItem)
  docId : String
  extractionTimestamp : ℤ
  vendorName : String
  deriving DecidableEq

/-- Result of validation checks (schema.py ValidationResult); the checks dict
is modelled as an association list in insertion order. -/
structure ValidationResult where
  passed : Bool
  checks : List (String × Bool)
  errors : List String
  warnings : List String
  deriving DecidableEq

/-- Routing decision (schema.py RoutingDecision). -/
structure RoutingDecision where
  outcome : String
  reasonCodes : List String
  confidenceScore : ℚ
  deriving DecidableEq

/-- Pydantic construction of RoutingDecision: confidence_score carries the
constraint ge=0.0, le=1.0. -/
def mkRoutingDecision (outcome : String) (reasonCodes : List String) (confidenceScore : ℚ) :
    Except String RoutingDecision :=
  if 0 ≤ confidenceScore ∧ confidenceScore ≤ 1 then
    Except.ok ⟨outcome, reasonCodes, confidenceScore⟩
  else Except.error "ValidationError: confidence_score must be between 0.0 and 1.0"

/-- Python dict lookup, the dict modelled as an association list. -/
def alookup {α : Type} (k : String) : List (String × α) → Option α
  | [] => Option.none
  | (k2, v) :: rest => if k2 = k then some v else alookup k rest

/-- Vendor A per-field payload: the value and confidence keys of one entry of
the flat fields mapping (an absent key modelled as Option.none). -/
structure FieldData where
  value : PyVal
  confidence : Option ℚ
  deriving DecidableEq

/-- Vendor B per-field payload: the text and score keys of one entry of the
nested extracted_data.financial mapping. -/
structure BFieldData where
  text : PyVal
  score : Option ℚ
  deriving DecidableEq

/-- Raw vendor output (normalizer.py input): the document_id and id keys,
the vendor A flat fields mapping and line_items list, and the vendor B
extracted_data.financial mapping and extracted_data.items list (a missing
items key modelled as the empty list, which Python treats the same
way). -/
structure VendorOutput where
  documentId : Option String
  idValue : Option String
  fields : List (String × FieldData)
  lineItems : Option (List RawItem)
  financial : List (String × BFieldData)
  items : List RawItem
  deriving DecidableEq

/-- doc_id derivation of normalize: vendor_output.get("document_id") or
vendor_output.get("id", "unknown") — Python or falls through on a falsy
(empty) document_id. -/
def VendorOutput.docId (o : VendorOutput) : String :=
  match o.documentId with
  | some s => if s ≠ "" then s else o.idValue.getD "unknown"
  | Option.none => o.idValue.getD "unknown"

/-- The nine field-audit slots produced by a vendor-specific normalization,
before assembly of the full record. -/
structure Slots where
  invoiceNumber : Option FieldAudit
  invoiceDate : Option FieldAudit
  supplierName : Option FieldAudit
  supplierId : Option FieldAudit
  currency : Option FieldAudit
  subtotal : Option FieldAudit
  tax : Option FieldAudit
  total : Option FieldAudit
  poNumber : Option FieldAudit
  deriving DecidableEq

/-- Vendor A create_field_audit (normalizer.py): absent key yields an absent
slot; otherwise a FieldAudit with the value taken verbatim (no type
coercion), confidence defaulting to 0.0, evidence fixed to page 1. -/
def createFieldAuditA (pv vv : String) (fields : List (String × FieldData)) (f : String) :
    Except String (Option FieldAudit) :=
  match alookup f fields with
  | Option.none => Except.ok Option.none
  | some fd =>
      (mkFieldAudit fd.value (fd.confidence.getD 0) (some ⟨1⟩) pv vv (some f)).map some

/-- The nine vendor A slots, in the evaluation order of the InvoiceSchema
construction in _normalize_vendor_a. -/
def slotsA (pv vv : String) (fields : List (String × FieldData)) : Except String Slots := do
  let invoiceNumber ← createFieldAuditA pv vv fields "invoice_number"
  let invoiceDate ← createFieldAuditA pv vv fields "invoice_date"
  let supplierName ← createFieldAuditA pv vv fields "supplier_name"
  let supplierId ← createFieldAuditA pv vv fields "supplier_id"
  let currency ← createFieldAuditA pv vv fields "currency"
  let subtotal ← createFieldAuditA pv vv fields "subtotal"
  let tax ← createFieldAuditA pv vv fields "tax"
  let total ← createFieldAuditA pv vv fields "total"
  let poNumber ← createFieldAuditA pv vv fields "po_number"
  Except.ok ⟨invoiceNumber, invoiceDate, supplierName, supplierId, currency,
             subtotal, tax, total, poNumber⟩

/-- Whether a canonical field is one of the numeric fields subtotal, tax,
total (the membership test of _normalize_vendor_b). -/
def numericCanonical (canonical : String) : Bool :=
  canonical == "subtotal" || canonical == "tax" || canonical == "total"

/-- Vendor B create_field_audit (normalizer.py): absent key yields an absent
slot; for numeric canonical fields the text value is coerced with float(),
a coercion failure yielding an absent slot; other fields keep the text
verbatim. -/
def createFieldAuditB (pv vv : String) (financial : List (String × BFieldData))
    (vendorField canonical : String) : Except String (Option FieldAudit) :=
  match alookup vendorField financial with
  | Option.none => Except.ok Option.none
  | some fd =>
      if numericCanonical canonical then
        match pyFloatValue fd.text with
        | Option.none => Except.ok Option.none
        | some q =>
            (mkFieldAudit (PyVal.num q) (fd.score.getD 0) (some ⟨1⟩) pv vv (some vendorField)).map some
      else
        (mkFieldAudit fd.text (fd.score.getD 0) (some ⟨1⟩) pv vv (some vendorField)).map some

/-- The nine vendor B slots, following the field_mapping iteration order of
_normalize_vendor_b. -/
def slotsB (pv vv : String) (financial : List (String × BFieldData)) : Except String Slots := do
  let invoiceNumber ← createFieldAuditB pv vv financial "invoice_num" "invoice_number"
  let invoiceDate ← createFieldAuditB pv vv financial "date" "invoice_date"
  let supplierName ← createFieldAuditB pv vv financial "vendor_name" "supplier_name"
  let supplierId ← createFieldAuditB pv vv financial "vendor_id" "supplier_id"
  let currency ← createFieldAuditB pv vv financial "currency_code" "currency"
  let subtotal ← createFieldAuditB pv vv financial "amount_before_tax" "subtotal"
  let tax ← createFieldAuditB pv vv financial "tax_amount" "tax"
  let total ← createFieldAuditB pv vv financial "amount_due" "total"
  let poNumber ← createFieldAuditB pv vv financial "purchase_order" "po_number"
  Except.ok ⟨invoiceNumber, invoiceDate, supplierName, supplierId, currency,
             subtotal, tax, total, poNumber⟩

/-- item.get(key, default) over a raw line-item mapping, as the PyVal the
pydantic validators receive. -/
def itemGet (item : RawItem) (k : String) (dflt : PyVal) : PyVal :=
  match alookup k item with
  | some v => v.toVal
  | Option.none => dflt

/-- One iteration of a vendor line-item loop, with the vendor-specific
description, quantity, unit-price, amount and confidence keys: the
embedded FieldAudit is constructed first (value = the raw item, confidence
from the vendor score coerced and bounds-checked), then the LineItem
fields are validated — either pydantic construction can raise. -/
def buildLineItem (pv vv dk qk pk ak ck : String) (item : RawItem) :
    Except String LineItem :=
  (pydanticFloat (itemGet item ck (PyVal.num 0))).bind fun c =>
  (mkFieldAudit (PyVal.dict item) c (some ⟨1⟩) pv vv (some "line_item")).bind fun audit =>
  mkLineItem (itemGet item dk (PyVal.str "")) (itemGet item qk PyVal.none)
    (itemGet item pk PyVal.none) (itemGet item ak (PyVal.num 0)) audit

/-- A vendor line-item loop: the items are normalized in order and never
dropped; the first pydantic failure aborts the normalization. -/
def buildLineItems (pv vv dk qk pk ak ck : String) : List RawItem →
    Except String (List LineItem)
  | [] => Except.ok []
  | item :: rest =>
      (buildLineItem pv vv dk qk pk ak ck item).bind fun li =>
      (buildLineItems pv vv dk qk pk ak ck rest).map fun lis => li :: lis

/-- The vendor A line-item block (normalizer.py lines 58-76): None when the
line_items key is absent, otherwise the normalized items (an empty list
stays an empty list). -/
def lineItemsA (pv vv : String) : Option (List RawItem) →
    Except String (Option (List LineItem))
  | Option.none => Except.ok Option.none
  | some items =>
      (buildLineItems pv vv "description" "quantity" "unit_price" "amount" "confidence"
        items).map some

/-- The vendor B items block (normalizer.py lines 142-161): a falsy (empty
or missing) items list leaves line_items None, otherwise the items are
normalized. -/
def lineItemsB (pv vv : String) : List RawItem → Except String (Option (List LineItem))
  | [] => Except.ok Option.none
  | items =>
      (buildLineItems pv vv "desc" "qty" "price" "line_total" "score" items).map some

/-- Whether one raw line item passes both pydantic constructions of the
loop (the FieldAudit with its confidence bound and the LineItem field
coercions). -/
def itemOKb (pv vv dk qk pk ak ck : String) (item : RawItem) : Bool :=
  exceptOk (buildLineItem pv vv dk qk pk ak ck item)

/-- Assembly of the canonical record from the nine slots, the line items
and the metadata. -/
def buildRecord (s : Slots) (docId : String) (now : ℤ) (vendorName : String)
    (lineItems : Option (List LineItem)) : InvoiceSchema :=
  { invoiceNumber := s.invoiceNumber, invoiceDate := s.invoiceDate,
    supplierName := s.supplierName, supplierId := s.supplierId, currency := s.currency,
    subtotal := s.subtotal, tax := s.tax, total := s.total, poNumber := s.poNumber,
    lineItems := lineItems,
    docId := docId, extractionTimestamp := now, vendorName := vendorName }

/-- Normalizer._normalize_vendor_a: the line-item loop runs first, then the
nine field audits are built and the record assembled. -/
def normalizeVendorA (pv : String) (out : VendorOutput) (docId vendorName vv : String)
    (now : ℤ) : Except String InvoiceSchema :=
  (lineItemsA pv vv out.lineItems).bind fun lineItems =>
  (slotsA pv vv out.fields).map fun s => buildRecord s docId now vendorName lineItems

/-- Normalizer._normalize_vendor_b: the nine field audits are built first,
then the items loop runs and the record is assembled. -/
def normalizeVendorB (pv : String) (out : VendorOutput) (docId vendorName vv : String)
    (now : ℤ) : Except String InvoiceSchema :=
  (slotsB pv vv out.financial).bind fun s =>
  (lineItemsB pv vv out.items).bind fun lineItems =>
  Except.ok (buildRecord s docId now vendorName lineItems)

/-- Normalizer.normalize: doc id derivation then dispatch on vendor name,
unknown vendors falling back to the vendor A shape.  The wall-clock
datetime.now() is modelled as the explicit argument now. -/
def normalize (pv : String) (out : VendorOutput) (vendorName vv : String) (now : ℤ) :
    Except String InvoiceSchema :=
  let docId := out.docId
  if vendorName = "vendor_a" then normalizeVendorA pv out docId vendorName vv now
  else if vendorName = "vendor_b" then normalizeVendorB pv out docId vendorName vv now
  else normalizeVendorA pv out docId vendorName vv now

/-- Validator configuration (Validator.__init__ with its defaults). -/
structure ValidatorCfg where
  currencyTolerance : List (String × ℚ)
  highTotalThreshold : ℚ
  lowConfidenceThreshold : ℚ
  requiredFields : List String

/-- The default Validator configuration. -/
def defaultCfg : ValidatorCfg :=
  { currencyTolerance := [("USD", mkRat 1 100), ("EUR", mkRat 1 100), ("GBP", mkRat 1 100)],
    highTotalThreshold := 100000,
    lowConfidenceThreshold := mkRat 7 10,
    requiredFields := ["invoice_number", "invoice_date", "supplier_name", "total"] }

/-- getattr(invoice, field, None) over the nine named FieldAudit slots. -/
def InvoiceSchema.getField (inv : InvoiceSchema) : String → Option FieldAudit
  | "invoice_number" => inv.invoiceNumber
  | "invoice_date" => inv.invoiceDate
  | "supplier_name" => inv.supplierName
  | "supplier_id" => inv.supplierId
  | "currency" => inv.currency
  | "subtotal" => inv.subtotal
  | "tax" => inv.tax
  | "total" => inv.total
  | "po_number" => inv.poNumber
  | _ => Option.none

/-- Validator._check_required_fields: every configured required field must be
a present FieldAudit with non-null value; one combined error otherwise. -/
def checkRequiredFields (cfg : ValidatorCfg) (inv : InvoiceSchema) : Bool × List String :=
  let missing := cfg.requiredFields.filter fun f =>
    match inv.getField f with
    | Option.none => true
    | some fa => decide (fa.value = PyVal.none)
  if missing.isEmpty then (true, [])
  else (false, ["Missing required fields: " ++ String.intercalate ", " missing])

/-- Acceptance of a date string, modelling the fromisoformat / strptime
Y-m-d acceptance of _check_date_format on the plain-date strings this
pipeline sees. -/
def isDateShape (s : String) : Bool :=
  match s.toList with
  | [y1, y2, y3, y4, '-', m1, m2, '-', d1, d2] =>
      allDigits [y1, y2, y3, y4, m1, m2, d1, d2] &&
      (let m := natOfDigits [m1, m2]
       let d := natOfDigits [d1, d2]
       decide (1 ≤ m ∧ m ≤ 12 ∧ 1 ≤ d ∧ d ≤ 31))
  | _ => false

/-- Validator._check_date_format: skipped when the slot or value is absent;
a textual value must parse as a date; a numeric value is a hard error. -/
def checkDateFormat (inv : InvoiceSchema) : Bool × List String :=
  match inv.invoiceDate with
  | Option.none => (true, [])
  | some fa =>
      match fa.value with
      | PyVal.none => (true, [])
      | PyVal.str s =>
          if isDateShape s then (true, []) else (false, ["Invalid date format: " ++ s])
      | _ => (false, ["Date must be string or datetime"])

/-- The fixed currency whitelist of _check_currency. -/
def validCurrencies : List String :=
  ["USD", "EUR", "GBP", "CAD", "AUD", "JPY", "CNY", "INR"]

/-- Validator._check_currency: skipped when absent; otherwise the upper-cased
value must be whitelisted. -/
def checkCurrency (inv : InvoiceSchema) : Bool × List String :=
  match inv.currency with
  | Option.none => (true, [])
  | some fa =>
      if fa.value = PyVal.none then (true, [])
      else
        let c := asciiUpper (pyStr fa.value)
        if validCurrencies.contains c then (true, [])
        else (false, ["Unrecognized currency: " ++ c])

/-- The conditional coercion float(x.value) if x.value else 0.0 used by
_check_reconciliation; float() may raise. -/
def coerceOrZero (v : PyVal) : Except String ℚ :=
  if v.truthy then pyFloat v else Except.ok 0

/-- The currency used by reconciliation: USD unless the currency slot is
present with a truthy value. -/
def reconCurrency (inv : InvoiceSchema) : String :=
  match inv.currency with
  | some c => if c.value.truthy then asciiUpper (pyStr c.value) else "USD"
  | Option.none => "USD"

/-- The reconciliation failure message, reporting the specific numbers, the
difference and the tolerance. -/
def reconMsg (s t u tol : ℚ) : String :=
  "Reconciliation failed: subtotal " ++ toString s ++ " + tax " ++ toString t ++
  " = " ++ toString (s + t) ++ " but total = " ++ toString u ++
  " difference " ++ toString |s + t - u| ++ " tolerance " ++ toString tol

/-- Validator._check_reconciliation: skipped when subtotal, tax or total slot
is absent; otherwise compares subtotal + tax with total under the
per-currency tolerance (default 0.01).  The float() coercions may raise. -/
def checkReconciliation (cfg : ValidatorCfg) (inv : InvoiceSchema) :
    Except String (Bool × List String) :=
  match inv.subtotal, inv.tax, inv.total with
  | some st, some tx, some tt =>
      (coerceOrZero st.value).bind fun subtotal =>
      (coerceOrZero tx.value).bind fun tax =>
      (coerceOrZero tt.value).bind fun total =>
        let tolerance := (alookup (reconCurrency inv) cfg.currencyTolerance).getD (mkRat 1 100)
        let difference := |subtotal + tax - total|
        if difference > tolerance then
          Except.ok (false, [reconMsg subtotal tax total tolerance])
        else Except.ok (true, [])
  | _, _, _ => Except.ok (true, [])

/-- Validator._check_total_threshold: skipped when the slot or value is
absent; float(value) may raise; a total above the threshold records a
warning (not an error) and reports the check as failed. -/
def checkTotalThreshold (cfg : ValidatorCfg) (inv : InvoiceSchema) :
    Except String (Bool × List String) :=
  match inv.total with
  | Option.none => Except.ok (true, [])
  | some fa =>
      if fa.value = PyVal.none then Except.ok (true, [])
      else
        (pyFloat fa.value).bind fun total =>
          if total > cfg.highTotalThreshold then
            Except.ok (false, ["High total amount: " ++ toString total])
          else Except.ok (true, [])

/-- Validator._check_po_present: warning and failed when po_number is absent
or null. -/
def checkPoPresent (inv : InvoiceSchema) : Bool × List String :=
  match inv.poNumber with
  | Option.none => (false, ["PO number missing"])
  | some fa => if fa.value = PyVal.none then (false, ["PO number missing"]) else (true, [])

/-- Validator.validate: the six checks in order, errors from the first four,
warnings from the last two, passed iff no errors. -/
def validate (cfg : ValidatorCfg) (inv : InvoiceSchema) : Except String ValidationResult :=
  let r1 := checkRequiredFields cfg inv
  let r2 := checkDateFormat inv
  let r3 := checkCurrency inv
  (checkReconciliation cfg inv).bind fun r4 =>
  (checkTotalThreshold cfg inv).bind fun r5 =>
    let r6 := checkPoPresent inv
    let errors := r1.2 ++ r2.2 ++ r3.2 ++ r4.2
    let warnings := r5.2 ++ r6.2
    Except.ok
      { passed := errors.isEmpty,
        checks := [("required_fields_present", r1.1), ("date_format_valid", r2.1),
                   ("currency_valid", r3.1), ("reconciliation_pass", r4.1),
                   ("total_within_threshold", r5.1), ("po_present", r6.1)],
        errors := errors, warnings := warnings }

/-- The critical field set of Validator.route, in iteration order. -/
def criticalFields : List String := ["invoice_number", "total", "invoice_date"]

/-- The low-confidence collection loop of route: critical fields that are
present with confidence strictly below the threshold (an absent slot is
skipped by the conjunctive guard in the source). -/
def lowConfidenceFields (cfg : ValidatorCfg) (inv : InvoiceSchema) : List String :=
  criticalFields.filter fun f =>
    match inv.getField f with
    | some fa => decide (fa.confidence < cfg.lowConfidenceThreshold)
    | Option.none => false

/-- The confidence scores of the present critical fields, in iteration
order. -/
def criticalConfidences (inv : InvoiceSchema) : List ℚ :=
  criticalFields.filterMap fun f => (inv.getField f).map FieldAudit.confidence

/-- The aggregate confidence of route: mean of the present critical-field
confidences, 0.0 when none are present. -/
def overallConfidence (inv : InvoiceSchema) : ℚ :=
  if criticalConfidences inv = [] then 0
  else (criticalConfidences inv).sum / (criticalConfidences inv).length

/-- The reason-code accumulation of Validator.route, in source append
order. -/
def routeReasonCodes (cfg : ValidatorCfg) (inv : InvoiceSchema) (validation : ValidationResult) :
    List String :=
  (if validation.passed then [] else
    ["VALIDATION_FAILED"]
    ++ (if alookup "reconciliation_pass" validation.checks = some false
        then ["TOTAL_MISMATCH"] else [])
    ++ (if alookup "required_fields_present" validation.checks = some false
        then ["MISSING_REQUIRED_FIELDS"] else []))
  ++ (if lowConfidenceFields cfg inv ≠ [] then
        ["LOW_CONFIDENCE",
         "LOW_CONF_" ++ asciiUpper (String.intercalate "_" (lowConfidenceFields cfg inv))]
      else [])
  ++ (if alookup "total_within_threshold" validation.checks = some false
      then ["HIGH_TOTAL"] else [])
  ++ (if alookup "po_present" validation.checks = some false
      then ["MISSING_PO"] else [])

/-- Validator.route: reason codes, aggregate confidence, then the conjunctive
AUTO_POST gate; the RoutingDecision construction carries the pydantic bound
on confidence_score. -/
def route (cfg : ValidatorCfg) (inv : InvoiceSchema) (validation : ValidationResult) :
    Except String RoutingDecision :=
  let reasonCodes := routeReasonCodes cfg inv validation
  let overall := overallConfidence inv
  let outcome :=
    if reasonCodes = [] ∧ overall ≥ cfg.lowConfidenceThreshold then "AUTO_POST"
    else "NEEDS_REVIEW"
  mkRoutingDecision outcome reasonCodes overall

/-- The full core pipeline normalize then validate then route. -/
def pipeline (pv : String) (cfg : ValidatorCfg) (out : VendorOutput)
    (vendorName vv : String) (now : ℤ) : Except String RoutingDecision :=
  (normalize pv out vendorName vv now).bind fun record =>
  (validate cfg record).bind fun validation =>
  route cfg record validation

/-- The pure value of a vendor A slot: the looked-up value stored verbatim
with the defaulted confidence. -/
def slotAValue (pv vv : String) (fields : List (String × FieldData)) (f : String) :
    Option FieldAudit :=
  (alookup f fields).map fun fd =>
    ⟨fd.value, fd.confidence.getD 0, some ⟨1⟩, pv, vv, some f⟩

/-- The pure value of a vendor B slot: numeric canonical fields coerced by
float() with failure yielding absence, other fields stored verbatim. -/
def slotBValue (pv vv : String) (financial : List (String × BFieldData))
    (vendorField canonical : String) : Option FieldAudit :=
  match alookup vendorField financial with
  | Option.none => Option.none
  | some fd =>
      if numericCanonical canonical then
        (pyFloatValue fd.text).map fun q =>
          ⟨PyVal.num q, fd.score.getD 0, some ⟨1⟩, pv, vv, some vendorField⟩
      else some ⟨fd.text, fd.score.getD 0, some ⟨1⟩, pv, vv, some vendorField⟩

/-- The pure value of the nine vendor A slots. -/
def slotsAValue (pv vv : String) (fields : List (String × FieldData)) : Slots :=
  ⟨slotAValue pv vv fields "invoice_number", slotAValue pv vv fields "invoice_date",
   slotAValue pv vv fields "supplier_name", slotAValue pv vv fields "supplier_id",
   slotAValue pv vv fields "currency", slotAValue pv vv fields "subtotal",
   slotAValue pv vv fields "tax", slotAValue pv vv fields "total",
   slotAValue pv vv fields "po_number"⟩

/-- The pure value of the nine vendor B slots. -/
def slotsBValue (pv vv : String) (financial : List (String × BFieldData)) : Slots :=
  ⟨slotBValue pv vv financial "invoice_num" "invoice_number",
   slotBValue pv vv financial "date" "invoice_date",
   slotBValue pv vv financial "vendor_name" "supplier_name",
   slotBValue pv vv financial "vendor_id" "supplier_id",
   slotBValue pv vv financial "currency_code" "currency",
   slotBValue pv vv financial "amount_before_tax" "subtotal",
   slotBValue pv vv financial "tax_amount" "tax",
   slotBValue pv vv financial "amount_due" "total",
   slotBValue pv vv financial "purchase_order" "po_number"⟩

/-- A value on which the validator's float() coercions cannot raise: either
the Python None (skipped by the threshold check and falsy for
reconciliation) or a float()-coercible value. -/
def valueOKb (v : PyVal) : Bool :=
  decide (v = PyVal.none) || exceptOk (pyFloat v)

/-- The validation result as a function of the two fallible check
outcomes. -/
def validateValue (cfg : ValidatorCfg) (inv : InvoiceSchema) (r4 r5 : Bool × List String) :
    ValidationResult :=
  let r1 := checkRequiredFields cfg inv
  let r2 := checkDateFormat inv
  let r3 := checkCurrency inv
  let r6 := checkPoPresent inv
  let errors := r1.2 ++ r2.2 ++ r3.2 ++ r4.2
  { passed := errors.isEmpty,
    checks := [("required_fields_present", r1.1), ("date_format_valid", r2.1),
               ("currency_valid", r3.1), ("reconciliation_pass", r4.1),
               ("total_within_threshold", r5.1), ("po_present", r6.1)],
    errors := errors, warnings := r5.2 ++ r6.2 }

/-- A concrete audit slot for test records. -/
def sampleAudit (v : PyVal) (c : ℚ) : FieldAudit :=
  ⟨v, c, some ⟨1⟩, "1.0.0", "2.1", Option.none⟩

/-- A fully-populated consistent test record. -/
def invAllGood : InvoiceSchema :=
  { invoiceNumber := some (sampleAudit (PyVal.str "INV-1") (mkRat 9 10)),
    invoiceDate := some (sampleAudit (PyVal.str "2024-01-15") (mkRat 9 10)),
    supplierName := some (sampleAudit (PyVal.str "ACME") (mkRat 9 10)),
    supplierId := Option.none,
    currency := some (sampleAudit (PyVal.str "USD") (mkRat 9 10)),
    subtotal := some (sampleAudit (PyVal.num 100) (mkRat 9 10)),
    tax := some (sampleAudit (PyVal.num 8) (mkRat 9 10)),
    total := some (sampleAudit (PyVal.num 108) (mkRat 9 10)),
    poNumber := some (sampleAudit (PyVal.str "PO-7") (mkRat 9 10)),
    lineItems := Option.none,
    docId := "doc-1", extractionTimestamp := 0, vendorName := "vendor_a" }

/-- An all-true validation result for routing tests. -/
def valAllTrue : ValidationResult :=
  { passed := true,
    checks := [("required_fields_present", true), ("date_format_valid", true),
               ("currency_valid", true), ("reconciliation_pass", true),
               ("total_within_threshold", true), ("po_present", true)],
    errors := [], warnings := [] }

/-- A record with the invoice_number critical slot absent and the other two
critical slots at confidence 0.9. -/
def inv3 : InvoiceSchema :=
  { invoiceNumber := Option.none,
    invoiceDate := some (sampleAudit (PyVal.str "2024-01-15") (mkRat 9 10)),
    supplierName := some (sampleAudit (PyVal.str "ACME") (mkRat 9 10)),
    supplierId := Option.none, currency := Option.none, subtotal := Option.none,
    tax := Option.none, total := some (sampleAudit (PyVal.num 108) (mkRat 9 10)),
    poNumber := Option.none, lineItems := Option.none,
    docId := "doc-3", extractionTimestamp := 0, vendorName := "vendor_a" }

/-- A record whose invoice_number confidence 0.5 sits below the default 0.7
threshold while the other critical slots sit at 0.9. -/
def inv3w : InvoiceSchema :=
  { invoiceNumber := some (sampleAudit (PyVal.str "INV-1") (mkRat 1 2)),
    invoiceDate := some (sampleAudit (PyVal.str "2024-01-15") (mkRat 9 10)),
    supplierName := some (sampleAudit (PyVal.str "ACME") (mkRat 9 10)),
    supplierId := Option.none, currency := Option.none, subtotal := Option.none,
    tax := Option.none, total := some (sampleAudit (PyVal.num 108) (mkRat 9 10)),
    poNumber := Option.none, lineItems := Option.none,
    docId := "doc-3w", extractionTimestamp := 0, vendorName := "vendor_a" }

/-- The consistent record with total 108.02 instead of 108.00. -/
def invReconFail : InvoiceSchema :=
  { invAllGood with total := some (sampleAudit (PyVal.num (mkRat 5401 50)) (mkRat 9 10)) }

/-- The consistent record with the PO slot absent. -/
def inv8 : InvoiceSchema :=
  { invAllGood with poNumber := Option.none }

/-- The expected validation result of the PO-less record: po_present failed
with a warning only, validation still passes. -/
def val8 : ValidationResult :=
  { passed := true,
    checks := [("required_fields_present", true), ("date_format_valid", true),
               ("currency_valid", true), ("reconciliation_pass", true),
               ("total_within_threshold", true), ("po_present", false)],
    errors := [], warnings := ["PO number missing"] }

/-- The consistent record with total 200000, above the default high-total
threshold. -/
def inv8w : InvoiceSchema :=
  { invAllGood with total := some (sampleAudit (PyVal.num 200000) (mkRat 9 10)) }

/-- The expected validation result of the high-total record. -/
def r8w : ValidationResult :=
  { passed := false,
    checks := [("required_fields_present", true), ("date_format_valid", true),
               ("currency_valid", true), ("reconciliation_pass", false),
               ("total_within_threshold", false), ("po_present", true)],
    errors := [reconMsg 100 8 200000 (mkRat 1 100)],
    warnings := ["High total amount: " ++ toString (200000 : ℚ)] }

/-- A vendor A output whose subtotal value is the non-numeric string abc. -/
def outAbc : VendorOutput :=
  { documentId := some "doc-a", idValue := Option.none,
    fields := [("subtotal", ⟨PyVal.str "abc", some (mkRat 9 10)⟩)],
    lineItems := Option.none, financial := [], items := [] }

/-- A vendor output carrying both shapes: a vendor A subtotal with a
non-numeric string value, and vendor B financial entries with a
non-coercible amount_before_tax and a coercible amount_due. -/
def outAB : VendorOutput :=
  { documentId := some "doc-ab", idValue := Option.none,
    fields := [("subtotal", ⟨PyVal.str "abc", some (mkRat 9 10)⟩)],
    lineItems := Option.none,
    financial := [("amount_before_tax", ⟨PyVal.str "abc", some (mkRat 9 10)⟩),
                  ("amount_due", ⟨PyVal.str "108", some (mkRat 9 10)⟩)],
    items := [] }

/-- The canonical record produced from outAB through the vendor B path. -/
def recB4 : InvoiceSchema :=
  { invoiceNumber := Option.none, invoiceDate := Option.none, supplierName := Option.none,
    supplierId := Option.none, currency := Option.none, subtotal := Option.none,
    tax := Option.none,
    total := some ⟨PyVal.num 108, mkRat 9 10, some ⟨1⟩, "1.0.0", "2.1", some "amount_due"⟩,
    poNumber := Option.none, lineItems := Option.none,
    docId := "doc-ab", extractionTimestamp := 0, vendorName := "vendor_b" }

/-- The canonical record produced from outAB through the unknown-vendor
fallback (the vendor A path). -/
def recA4 : InvoiceSchema :=
  { invoiceNumber := Option.none, invoiceDate := Option.none, supplierName := Option.none,
    supplierId := Option.none, currency := Option.none,
    subtotal := some ⟨PyVal.str "abc", mkRat 9 10, some ⟨1⟩, "1.0.0", "2.1", some "subtotal"⟩,
    tax := Option.none, total := Option.none, poNumber := Option.none,
    lineItems := Option.none,
    docId := "doc-ab", extractionTimestamp := 0, vendorName := "other" }

/-- A vendor A output whose required fields are present and whose subtotal
value is a truthy non-numeric string. -/
def outBad : VendorOutput :=
  { documentId := some "doc-bad", idValue := Option.none,
    fields := [("invoice_number", ⟨PyVal.str "INV-9", some (mkRat 9 10)⟩),
               ("invoice_date", ⟨PyVal.str "2024-01-15", some (mkRat 9 10)⟩),
               ("supplier_name", ⟨PyVal.str "ACME", some (mkRat 9 10)⟩),
               ("subtotal", ⟨PyVal.str "abc", some (mkRat 9 10)⟩),
               ("tax", ⟨PyVal.num 8, some (mkRat 9 10)⟩),
               ("total", ⟨PyVal.num 108, some (mkRat 9 10)⟩)],
    lineItems := Option.none, financial := [], items := [] }

/-- A vendor output whose only flaw is a line item with a non-coercible
amount: no value ever reaches the subtotal, tax or total slots and the
item confidence is in range. -/
def outBadItem : VendorOutput :=
  { documentId := some "doc-bi", idValue := Option.none,
    fields := [],
    lineItems := some [[("amount", PyScalar.str "abc"),
                        ("confidence", PyScalar.num (mkRat 1 2))]],
    financial := [], items := [] }

/-- A benign vendor A output: confidences in range and numeric values
coercible. -/
def outGood : VendorOutput :=
  { documentId := some "doc-g", idValue := Option.none,
    fields := [("invoice_number", ⟨PyVal.str "INV-1", some (mkRat 9 10)⟩),
               ("invoice_date", ⟨PyVal.str "2024-01-15", some (mkRat 9 10)⟩),
               ("supplier_name", ⟨PyVal.str "ACME", some (mkRat 9 10)⟩),
               ("subtotal", ⟨PyVal.num 100, some (mkRat 9 10)⟩),
               ("tax", ⟨PyVal.num 8, some (mkRat 9 10)⟩),
               ("total", ⟨PyVal.num 108, some (mkRat 9 10)⟩)],
    lineItems := some [[("description", PyScalar.str "Widget"),
                        ("quantity", PyScalar.num 2), ("unit_price", PyScalar.num 50),
                        ("amount", PyScalar.num 100),
                        ("confidence", PyScalar.num (mkRat 9 10))]],
    financial := [], items := [] }

/-- Reduction of a successful monadic bind. -/
theorem ok_bind {α β : Type} (a : α) (f : α → Except String β) :
    (Except.ok a >>= f) = f a := rfl

/-- Reduction of a successful explicit Except.bind. -/
theorem ok_bindE {α β : Type} (a : α) (f : α → Except String β) :
    Except.bind (Except.ok a) f = f a := rfl

/-- Inversion of a successful monadic bind. -/
theorem bind_ok_elim {α β : Type} {x : Except String α} {f : α → Except String β} {b : β}
    (h : (x >>= f) = Except.ok b) : ∃ a, x = Except.ok a ∧ f a = Except.ok b := by
  cases x with
  | ok a => exact ⟨a, rfl, h⟩
  | error e => exact Except.noConfusion h

/-- Inversion of a successful explicit Except.bind. -/
theorem bindE_ok_elim {α β : Type} {x : Except String α} {f : α → Except String β} {b : β}
    (h : Except.bind x f = Except.ok b) : ∃ a, x = Except.ok a ∧ f a = Except.ok b := by
  cases x with
  | ok a => exact ⟨a, rfl, h⟩
  | error e => exact Except.noConfusion h

/-- Inversion of a successful Except.map. -/
theorem map_ok_elim {α β : Type} {x : Except String α} {g : α → β} {b : β}
    (h : x.map g = Except.ok b) : ∃ a, x = Except.ok a ∧ g a = b := by
  cases x with
  | ok a => injection h with h2; exact ⟨a, rfl, h2⟩
  | error e => exact Except.noConfusion h

/-- A successful lookup points at an entry of the association list. -/
theorem alookup_mem {α : Type} {k : String} {v : α} {l : List (String × α)}
    (h : alookup k l = some v) : (k, v) ∈ l := by
  induction l with
  | nil => exact Option.noConfusion h
  | cons p rest ih =>
      obtain ⟨k2, w⟩ := p
      by_cases hk : k2 = k
      · rw [alookup, if_pos hk] at h
        injection h with h2
        subst hk; subst h2
        exact List.mem_cons_self _ _
      · rw [alookup, if_neg hk] at h
        exact List.mem_cons_of_mem _ (ih h)

/-- FieldAudit construction succeeds on an in-range confidence. -/
theorem mkFieldAudit_ok_of {value : PyVal} {confidence : ℚ} {evidence : Option Evidence}
    {pv vv : String} {n : Option String} (h : 0 ≤ confidence ∧ confidence ≤ 1) :
    mkFieldAudit value confidence evidence pv vv n =
      Except.ok ⟨value, confidence, evidence, pv, vv, n⟩ := by
  rw [mkFieldAudit, if_pos h]

/-- Inversion of a successful FieldAudit construction. -/
theorem mkFieldAudit_ok_elim {value : PyVal} {confidence : ℚ} {evidence : Option Evidence}
    {pv vv : String} {n : Option String} {fa : FieldAudit}
    (h : mkFieldAudit value confidence evidence pv vv n = Except.ok fa) :
    fa = ⟨value, confidence, evidence, pv, vv, n⟩ ∧ 0 ≤ confidence ∧ confidence ≤ 1 := by
  by_cases hc : 0 ≤ confidence ∧ confidence ≤ 1
  · rw [mkFieldAudit, if_pos hc] at h
    injection h with h2
    exact ⟨h2.symm, hc⟩
  · rw [mkFieldAudit, if_neg hc] at h
    exact Except.noConfusion h

/-- A successful vendor A field audit equals its pure slot value. -/
theorem createFieldAuditA_ok_elim {pv vv : String} {fields : List (String × FieldData)}
    {f : String} {s : Option FieldAudit}
    (h : createFieldAuditA pv vv fields f = Except.ok s) :
    s = slotAValue pv vv fields f := by
  unfold createFieldAuditA at h
  cases hl : alookup f fields with
  | none =>
      rw [hl] at h
      injection h with h2
      rw [slotAValue, hl, ← h2]
      rfl
  | some fd =>
      rw [hl] at h
      obtain ⟨fa, hfa, he⟩ := map_ok_elim h
      obtain ⟨hfa2, _⟩ := mkFieldAudit_ok_elim hfa
      rw [slotAValue, hl, ← he, hfa2]
      rfl

/-- Vendor A field-audit creation succeeds when every confidence in the
vendor fields mapping is in the unit interval. -/
theorem createFieldAuditA_ok_of {pv vv : String} {fields : List (String × FieldData)}
    (h : ∀ p ∈ fields, 0 ≤ p.2.confidence.getD 0 ∧ p.2.confidence.getD 0 ≤ 1) (f : String) :
    createFieldAuditA pv vv fields f = Except.ok (slotAValue pv vv fields f) := by
  unfold createFieldAuditA slotAValue
  cases hl : alookup f fields with
  | none => rfl
  | some fd =>
      have hc : 0 ≤ fd.confidence.getD 0 ∧ fd.confidence.getD 0 ≤ 1 := h (f, fd) (alookup_mem hl)
      simp only [mkFieldAudit_ok_of hc]
      rfl

/-- A present vendor A slot carries the looked-up vendor value and
defaulted confidence. -/
theorem slotAValue_elim {pv vv : String} {fields : List (String × FieldData)}
    {f : String} {fa : FieldAudit} (h : slotAValue pv vv fields f = some fa) :
    ∃ fd, alookup f fields = some fd ∧ fa.value = fd.value ∧
      fa.confidence = fd.confidence.getD 0 := by
  unfold slotAValue at h
  cases hl : alookup f fields with
  | none => rw [hl] at h; exact Option.noConfusion h
  | some fd =>
      rw [hl] at h
      injection h with h2
      exact ⟨fd, rfl, by rw [← h2], by rw [← h2]⟩

/-- A successful vendor B field audit equals its pure slot value. -/
theorem createFieldAuditB_ok_elim {pv vv : String} {financial : List (String × BFieldData)}
    {vf cf : String} {s : Option FieldAudit}
    (h : createFieldAuditB pv vv financial vf cf = Except.ok s) :
    s = slotBValue pv vv financial vf cf := by
  unfold createFieldAuditB at h
  unfold slotBValue
  cases hl : alookup vf financial with
  | none =>
      rw [hl] at h
      injection h with h2
      rw [← h2]
  | some fd =>
      rw [hl] at h
      cases hn : numericCanonical cf with
      | false =>
          rw [hn] at h
          simp only [Bool.false_eq_true, if_false] at h ⊢
          obtain ⟨fa, hfa, he⟩ := map_ok_elim h
          obtain ⟨hfa2, _⟩ := mkFieldAudit_ok_elim hfa
          rw [← he, hfa2]
      | true =>
          rw [hn] at h
          simp only [if_true] at h ⊢
          cases hp : pyFloatValue fd.text with
          | none =>
              rw [hp] at h
              injection h with h2
              rw [← h2]
              rfl
          | some q =>
              rw [hp] at h
              obtain ⟨fa, hfa, he⟩ := map_ok_elim h
              obtain ⟨hfa2, _⟩ := mkFieldAudit_ok_elim hfa
              rw [← he, hfa2]
              rfl

/-- Vendor B field-audit creation succeeds when every score in the financial
mapping is in the unit interval. -/
theorem createFieldAuditB_ok_of {pv vv : String} {financial : List (String × BFieldData)}
    (h : ∀ p ∈ financial, 0 ≤ p.2.score.getD 0 ∧ p.2.score.getD 0 ≤ 1) (vf cf : String) :
    createFieldAuditB pv vv financial vf cf = Except.ok (slotBValue pv vv financial vf cf) := by
  unfold createFieldAuditB slotBValue
  cases hl : alookup vf financial with
  | none => rfl
  | some fd =>
      have hc : 0 ≤ fd.score.getD 0 ∧ fd.score.getD 0 ≤ 1 := h (vf, fd) (alookup_mem hl)
      cases hn : numericCanonical cf with
      | false =>
          simp only [Bool.false_eq_true, if_false, mkFieldAudit_ok_of hc]
          rfl
      | true =>
          simp only [if_true]
          cases hp : pyFloatValue fd.text with
          | none => rfl
          | some q =>
              simp only [mkFieldAudit_ok_of hc]
              rfl

/-- A present vendor B slot carries the defaulted vendor score as its
confidence. -/
theorem slotBValue_elim {pv vv : String} {financial : List (String × BFieldData)}
    {vf cf : String} {fa : FieldAudit} (h : slotBValue pv vv financial vf cf = some fa) :
    ∃ fd, alookup vf financial = some fd ∧ fa.confidence = fd.score.getD 0 := by
  unfold slotBValue at h
  cases hl : alookup vf financial with
  | none => rw [hl] at h; exact Option.noConfusion h
  | some fd =>
      rw [hl] at h
      cases hn : numericCanonical cf with
      | false =>
          rw [hn] at h
          simp only [Bool.false_eq_true, if_false] at h
          injection h with h2
          exact ⟨fd, rfl, by rw [← h2]⟩
      | true =>
          rw [hn] at h
          simp only [if_true] at h
          cases hp : pyFloatValue fd.text with
          | none => rw [hp] at h; exact Option.noConfusion h
          | some q =>
              rw [hp] at h
              injection h with h2
              exact ⟨fd, rfl, by rw [← h2]⟩

/-- A present numeric vendor B slot holds a numeric value. -/
theorem slotBValue_num {pv vv : String} {financial : List (String × BFieldData)}
    {vf cf : String} {fa : FieldAudit}
    (h : slotBValue pv vv financial vf cf = some fa)
    (hn : numericCanonical cf = true) : ∃ q, fa.value = PyVal.num q := by
  unfold slotBValue at h
  cases hl : alookup vf financial with
  | none => rw [hl] at h; exact Option.noConfusion h
  | some fd =>
      rw [hl, hn] at h
      simp only [if_true] at h
      cases hp : pyFloatValue fd.text with
      | none => rw [hp] at h; exact Option.noConfusion h
      | some q =>
          rw [hp] at h
          injection h with h2
          exact ⟨q, by rw [← h2]⟩

/-- A failed float() coercion leaves a numeric vendor B slot absent. -/
theorem slotBValue_absent {pv vv : String} {financial : List (String × BFieldData)}
    {vf cf : String} {fd : BFieldData} (hn : numericCanonical cf = true)
    (hl : alookup vf financial = some fd) (hp : pyFloatValue fd.text = Option.none) :
    slotBValue pv vv financial vf cf = Option.none := by
  unfold slotBValue
  rw [hl, hn]
  simp only [if_true]
  rw [hp]
  rfl

/-- Successful vendor A slot assembly yields the pure slot values. -/
theorem slotsA_ok_elim {pv vv : String} {fields : List (String × FieldData)} {s : Slots}
    (h : slotsA pv vv fields = Except.ok s) : s = slotsAValue pv vv fields := by
  unfold slotsA at h
  obtain ⟨a1, h1, h⟩ := bind_ok_elim h
  obtain ⟨a2, h2, h⟩ := bind_ok_elim h
  obtain ⟨a3, h3, h⟩ := bind_ok_elim h
  obtain ⟨a4, h4, h⟩ := bind_ok_elim h
  obtain ⟨a5, h5, h⟩ := bind_ok_elim h
  obtain ⟨a6, h6, h⟩ := bind_ok_elim h
  obtain ⟨a7, h7, h⟩ := bind_ok_elim h
  obtain ⟨a8, h8, h⟩ := bind_ok_elim h
  obtain ⟨a9, h9, h⟩ := bind_ok_elim h
  injection h with h0
  rw [← h0, createFieldAuditA_ok_elim h1, createFieldAuditA_ok_elim h2,
      createFieldAuditA_ok_elim h3, createFieldAuditA_ok_elim h4,
      createFieldAuditA_ok_elim h5, createFieldAuditA_ok_elim h6,
      createFieldAuditA_ok_elim h7, createFieldAuditA_ok_elim h8,
      createFieldAuditA_ok_elim h9]
  rfl

/-- Vendor A slot assembly succeeds when every confidence in the vendor
fields mapping is in the unit interval. -/
theorem slotsA_ok_of {pv vv : String} {fields : List (String × FieldData)}
    (h : ∀ p ∈ fields, 0 ≤ p.2.confidence.getD 0 ∧ p.2.confidence.getD 0 ≤ 1) :
    slotsA pv vv fields = Except.ok (slotsAValue pv vv fields) := by
  unfold slotsA
  simp only [createFieldAuditA_ok_of h, ok_bind]
  rfl

/-- Successful vendor B slot assembly yields the pure slot values. -/
theorem slotsB_ok_elim {pv vv : String} {financial : List (String × BFieldData)} {s : Slots}
    (h : slotsB pv vv financial = Except.ok s) : s = slotsBValue pv vv financial := by
  unfold slotsB at h
  obtain ⟨a1, h1, h⟩ := bind_ok_elim h
  obtain ⟨a2, h2, h⟩ := bind_ok_elim h
  obtain ⟨a3, h3, h⟩ := bind_ok_elim h
  obtain ⟨a4, h4, h⟩ := bind_ok_elim h
  obtain ⟨a5, h5, h⟩ := bind_ok_elim h
  obtain ⟨a6, h6, h⟩ := bind_ok_elim h
  obtain ⟨a7, h7, h⟩ := bind_ok_elim h
  obtain ⟨a8, h8, h⟩ := bind_ok_elim h
  obtain ⟨a9, h9, h⟩ := bind_ok_elim h
  injection h with h0
  rw [← h0, createFieldAuditB_ok_elim h1, createFieldAuditB_ok_elim h2,
      createFieldAuditB_ok_elim h3, createFieldAuditB_ok_elim h4,
      createFieldAuditB_ok_elim h5, createFieldAuditB_ok_elim h6,
      createFieldAuditB_ok_elim h7, createFieldAuditB_ok_elim h8,
      createFieldAuditB_ok_elim h9]
  rfl

/-- Vendor B slot assembly succeeds when every score in the financial
mapping is in the unit interval. -/
theorem slotsB_ok_of {pv vv : String} {financial : List (String × BFieldData)}
    (h : ∀ p ∈ financial, 0 ≤ p.2.score.getD 0 ∧ p.2.score.getD 0 ≤ 1) :
    slotsB pv vv financial = Except.ok (slotsBValue pv vv financial) := by
  unfold slotsB
  simp only [createFieldAuditB_ok_of h, ok_bind]
  rfl

/-- The empty-guarded mean of a list of unit-interval rationals stays in the
unit interval. -/
theorem mean_mem_unit (l : List ℚ) (h : ∀ x ∈ l, 0 ≤ x ∧ x ≤ 1) :
    0 ≤ (if l = [] then (0 : ℚ) else l.sum / l.length) ∧
      (if l = [] then (0 : ℚ) else l.sum / l.length) ≤ 1 := by
  by_cases hl : l = []
  · rw [if_pos hl]
    exact ⟨le_refl 0, zero_le_one⟩
  · rw [if_neg hl]
    have hlen : 0 < (l.length : ℚ) := by
      exact_mod_cast List.length_pos.mpr hl
    have hsum0 : 0 ≤ l.sum := List.sum_nonneg fun x hx => (h x hx).1
    have hsum1 : l.sum ≤ (l.length : ℚ) := by
      have := List.sum_le_card_nsmul l 1 fun x hx => (h x hx).2
      simpa [nsmul_eq_mul] using this
    exact ⟨div_nonneg hsum0 (le_of_lt hlen), (div_le_one hlen).mpr hsum1⟩

/-- Every critical-field confidence comes from a present slot. -/
theorem criticalConfidences_mem {inv : InvoiceSchema} {x : ℚ}
    (hx : x ∈ criticalConfidences inv) :
    ∃ f fa, inv.getField f = some fa ∧ fa.confidence = x := by
  unfold criticalConfidences at hx
  rw [List.mem_filterMap] at hx
  obtain ⟨f, _, hf⟩ := hx
  rw [Option.map_eq_some'] at hf
  obtain ⟨fa, hfa, hc⟩ := hf
  exact ⟨f, fa, hfa, hc⟩

/-- The aggregate confidence stays in the unit interval when every present
slot's confidence does. -/
theorem overallConfidence_mem_unit (inv : InvoiceSchema)
    (h : ∀ f fa, inv.getField f = some fa → 0 ≤ fa.confidence ∧ fa.confidence ≤ 1) :
    0 ≤ overallConfidence inv ∧ overallConfidence inv ≤ 1 := by
  have hm : ∀ x ∈ criticalConfidences inv, 0 ≤ x ∧ x ≤ 1 := by
    intro x hx
    obtain ⟨f, fa, hfa, hc⟩ := criticalConfidences_mem hx
    rw [← hc]
    exact h f fa hfa
  unfold overallConfidence
  exact mean_mem_unit _ hm

/-- Successful routing under an in-range aggregate confidence, with the
decision fields spelled out. -/
theorem route_ok_of {cfg : ValidatorCfg} {inv : InvoiceSchema} {validation : ValidationResult}
    (h : 0 ≤ overallConfidence inv ∧ overallConfidence inv ≤ 1) :
    route cfg inv validation =
      Except.ok ⟨if routeReasonCodes cfg inv validation = [] ∧
                    overallConfidence inv ≥ cfg.lowConfidenceThreshold
                 then "AUTO_POST" else "NEEDS_REVIEW",
                 routeReasonCodes cfg inv validation, overallConfidence inv⟩ := by
  unfold route mkRoutingDecision
  rw [if_pos h]

/-- Inversion of a successful routing call. -/
theorem route_ok_elim {cfg : ValidatorCfg} {inv : InvoiceSchema}
    {validation : ValidationResult} {d : RoutingDecision}
    (h : route cfg inv validation = Except.ok d) :
    d.reasonCodes = routeReasonCodes cfg inv validation ∧
    d.confidenceScore = overallConfidence inv ∧
    d.outcome = (if routeReasonCodes cfg inv validation = [] ∧
                    overallConfidence inv ≥ cfg.lowConfidenceThreshold
                 then "AUTO_POST" else "NEEDS_REVIEW") := by
  unfold route mkRoutingDecision at h
  by_cases hc : 0 ≤ overallConfidence inv ∧ overallConfidence inv ≤ 1
  · rw [if_pos hc] at h
    injection h with h2
    rw [← h2]
    exact ⟨rfl, rfl, rfl⟩
  · rw [if_neg hc] at h
    exact Except.noConfusion h

/-- The guarded coercion of reconciliation succeeds on such a value. -/
theorem coerceOrZero_ok_of {v : PyVal} (h : valueOKb v = true) :
    ∃ q, coerceOrZero v = Except.ok q := by
  unfold coerceOrZero
  cases hv : v.truthy with
  | false => exact ⟨0, rfl⟩
  | true =>
      cases hp : pyFloat v with
      | ok q => exact ⟨q, rfl⟩
      | error e =>
          exfalso
          unfold valueOKb at h
          cases v with
          | none => exact Bool.noConfusion hv
          | str s => rw [hp] at h; exact Bool.noConfusion h
          | num q => exact Except.noConfusion hp
          | dict entries => rw [hp] at h; exact Bool.noConfusion h

/-- Reconciliation cannot raise when the three numeric slots hold such
values. -/
theorem checkReconciliation_ok_of {cfg : ValidatorCfg} {inv : InvoiceSchema}
    (hs : ∀ fa, inv.subtotal = some fa → valueOKb fa.value = true)
    (ht : ∀ fa, inv.tax = some fa → valueOKb fa.value = true)
    (hu : ∀ fa, inv.total = some fa → valueOKb fa.value = true) :
    ∃ r, checkReconciliation cfg inv = Except.ok r := by
  unfold checkReconciliation
  cases h1 : inv.subtotal with
  | none => exact ⟨(true, []), rfl⟩
  | some st =>
      cases h2 : inv.tax with
      | none => exact ⟨(true, []), rfl⟩
      | some tx =>
          cases h3 : inv.total with
          | none => exact ⟨(true, []), rfl⟩
          | some tt =>
              obtain ⟨s, hcs⟩ := coerceOrZero_ok_of (hs st h1)
              obtain ⟨t, hct⟩ := coerceOrZero_ok_of (ht tx h2)
              obtain ⟨u, hcu⟩ := coerceOrZero_ok_of (hu tt h3)
              simp only [hcs, hct, hcu, ok_bindE]
              split
              · exact ⟨_, rfl⟩
              · exact ⟨_, rfl⟩

/-- Reduction of the total-threshold check on a present total slot. -/
theorem checkTotalThreshold_some {cfg : ValidatorCfg} {inv : InvoiceSchema} {fa : FieldAudit}
    (h1 : inv.total = some fa) :
    checkTotalThreshold cfg inv =
      (if fa.value = PyVal.none then Except.ok (true, [])
       else
         (pyFloat fa.value).bind fun total =>
           if total > cfg.highTotalThreshold then
             Except.ok (false, ["High total amount: " ++ toString total])
           else Except.ok (true, [])) := by
  unfold checkTotalThreshold
  rw [h1]

/-- The total-threshold check cannot raise when the total slot holds such a
value. -/
theorem checkTotalThreshold_ok_of {cfg : ValidatorCfg} {inv : InvoiceSchema}
    (hu : ∀ fa, inv.total = some fa → valueOKb fa.value = true) :
    ∃ r, checkTotalThreshold cfg inv = Except.ok r := by
  cases h1 : inv.total with
  | none => exact ⟨(true, []), by unfold checkTotalThreshold; rw [h1]⟩
  | some fa =>
      rw [checkTotalThreshold_some h1]
      by_cases hv : fa.value = PyVal.none
      · rw [if_pos hv]
        exact ⟨(true, []), rfl⟩
      · rw [if_neg hv]
        have h := hu fa h1
        unfold valueOKb at h
        cases hp : pyFloat fa.value with
        | ok q =>
            rw [ok_bindE]
            split
            · exact ⟨_, rfl⟩
            · exact ⟨_, rfl⟩
        | error e =>
            exfalso
            simp [hv, hp, exceptOk] at h

/-- Inversion of a successful validation run. -/
theorem validate_ok_elim {cfg : ValidatorCfg} {inv : InvoiceSchema} {r : ValidationResult}
    (h : validate cfg inv = Except.ok r) :
    ∃ r4 r5, checkReconciliation cfg inv = Except.ok r4 ∧
      checkTotalThreshold cfg inv = Except.ok r5 ∧ r = validateValue cfg inv r4 r5 := by
  unfold validate at h
  obtain ⟨r4, h4, h⟩ := bindE_ok_elim h
  obtain ⟨r5, h5, h⟩ := bindE_ok_elim h
  injection h with h0
  exact ⟨r4, r5, h4, h5, h0.symm⟩

/-- Validation cannot raise when the three numeric slots hold benign
values. -/
theorem validate_ok_of {cfg : ValidatorCfg} {inv : InvoiceSchema}
    (hs : ∀ fa, inv.subtotal = some fa → valueOKb fa.value = true)
    (ht : ∀ fa, inv.tax = some fa → valueOKb fa.value = true)
    (hu : ∀ fa, inv.total = some fa → valueOKb fa.value = true) :
    ∃ r, validate cfg inv = Except.ok r := by
  obtain ⟨r4, h4⟩ := checkReconciliation_ok_of hs ht hu
  obtain ⟨r5, h5⟩ := checkTotalThreshold_ok_of hu
  refine ⟨validateValue cfg inv r4 r5, ?_⟩
  unfold validate validateValue
  rw [h4, ok_bindE, h5, ok_bindE]

/-- A filterMap over a partial projection is the map of the defaulted
projection over the filter of the defined positions. -/
theorem filterMap_eq_filter_map {α β : Type} (g : α → Option β) (d : β) (l : List α) :
    l.filterMap g = (l.filter fun a => (g a).isSome).map fun a => (g a).getD d := by
  induction l with
  | nil => rfl
  | cons a rest ih =>
      cases hg : g a with
      | none => simp [List.filterMap_cons, List.filter_cons, hg, ih]
      | some b => simp [List.filterMap_cons, List.filter_cons, hg, ih]

/-- Evaluation of reconciliation on present slots with successful
coercions. -/
theorem checkReconciliation_eval {cfg : ValidatorCfg} {inv : InvoiceSchema}
    {st tx tt : FieldAudit} {s t u : ℚ}
    (h1 : inv.subtotal = some st) (h2 : inv.tax = some tx) (h3 : inv.total = some tt)
    (hcs : coerceOrZero st.value = Except.ok s) (hct : coerceOrZero tx.value = Except.ok t)
    (hcu : coerceOrZero tt.value = Except.ok u) :
    checkReconciliation cfg inv =
      (if |s + t - u| > (alookup (reconCurrency inv) cfg.currencyTolerance).getD (mkRat 1 100)
       then Except.ok (false,
        [reconMsg s t u ((alookup (reconCurrency inv) cfg.currencyTolerance).getD (mkRat 1 100))])
       else Except.ok (true, [])) := by
  unfold checkReconciliation
  simp only [h1, h2, h3, hcs, hct, hcu, ok_bindE]

/-- The consistent record reconciles. -/
theorem recon_invAllGood : checkReconciliation defaultCfg invAllGood = Except.ok (true, []) := by
  have h1 : invAllGood.subtotal = some (sampleAudit (PyVal.num 100) (mkRat 9 10)) := rfl
  have h2 : invAllGood.tax = some (sampleAudit (PyVal.num 8) (mkRat 9 10)) := rfl
  have h3 : invAllGood.total = some (sampleAudit (PyVal.num 108) (mkRat 9 10)) := rfl
  have hcs : coerceOrZero (sampleAudit (PyVal.num 100) (mkRat 9 10)).value =
      Except.ok 100 := rfl
  have hct : coerceOrZero (sampleAudit (PyVal.num 8) (mkRat 9 10)).value =
      Except.ok 8 := rfl
  have hcu : coerceOrZero (sampleAudit (PyVal.num 108) (mkRat 9 10)).value =
      Except.ok 108 := rfl
  rw [checkReconciliation_eval h1 h2 h3 hcs hct hcu]
  have htol : (alookup (reconCurrency invAllGood) defaultCfg.currencyTolerance).getD
      (mkRat 1 100) = mkRat 1 100 := by decide
  rw [htol, if_neg (by norm_num [Rat.mkRat_eq_div])]

/-- The consistent record validates cleanly. -/
theorem val_invAllGood : validate defaultCfg invAllGood = Except.ok valAllTrue := by
  unfold validate
  rw [recon_invAllGood, ok_bindE]
  rfl

/-- The aggregate confidence of the consistent record. -/
theorem overall_invAllGood : overallConfidence invAllGood = mkRat 9 10 := by
  have hconfs : criticalConfidences invAllGood = [mkRat 9 10, mkRat 9 10, mkRat 9 10] := by
    decide
  unfold overallConfidence
  rw [hconfs, if_neg (by decide)]
  norm_num [List.sum_cons, List.sum_nil, Rat.mkRat_eq_div]

/-- Routing the consistent record auto-posts. -/
theorem route_invAllGood :
    route defaultCfg invAllGood valAllTrue = Except.ok ⟨"AUTO_POST", [], mkRat 9 10⟩ := by
  have hcodes : routeReasonCodes defaultCfg invAllGood valAllTrue = [] := by decide
  have hb : 0 ≤ overallConfidence invAllGood ∧ overallConfidence invAllGood ≤ 1 := by
    rw [overall_invAllGood]
    constructor <;> norm_num [Rat.mkRat_eq_div]
  rw [route_ok_of hb, hcodes, overall_invAllGood, if_pos ⟨rfl, by decide⟩]

/-- The aggregate confidence of the record with an absent critical slot. -/
theorem overall_inv3 : overallConfidence inv3 = mkRat 9 10 := by
  have hconfs : criticalConfidences inv3 = [mkRat 9 10, mkRat 9 10] := by decide
  unfold overallConfidence
  rw [hconfs, if_neg (by decide)]
  norm_num [List.sum_cons, List.sum_nil, Rat.mkRat_eq_div]

/-- Routing the record with an absent critical slot. -/
theorem route_inv3 :
    route defaultCfg inv3 valAllTrue = Except.ok ⟨"AUTO_POST", [], mkRat 9 10⟩ := by
  have hcodes : routeReasonCodes defaultCfg inv3 valAllTrue = [] := by decide
  have hb : 0 ≤ overallConfidence inv3 ∧ overallConfidence inv3 ≤ 1 := by
    rw [overall_inv3]
    constructor <;> norm_num [Rat.mkRat_eq_div]
  rw [route_ok_of hb, hcodes, overall_inv3, if_pos ⟨rfl, by decide⟩]

/-- The aggregate confidence of the low-confidence record. -/
theorem overall_inv3w : overallConfidence inv3w = mkRat 23 30 := by
  have hconfs : criticalConfidences inv3w = [mkRat 1 2, mkRat 9 10, mkRat 9 10] := by decide
  unfold overallConfidence
  rw [hconfs, if_neg (by decide)]
  norm_num [List.sum_cons, List.sum_nil, Rat.mkRat_eq_div]

/-- The reason codes of the low-confidence record. -/
theorem codes_inv3w :
    routeReasonCodes defaultCfg inv3w valAllTrue =
      ["LOW_CONFIDENCE", "LOW_CONF_INVOICE_NUMBER"] := by decide

/-- Routing the low-confidence record. -/
theorem route_inv3w :
    route defaultCfg inv3w valAllTrue =
      Except.ok ⟨"NEEDS_REVIEW", ["LOW_CONFIDENCE", "LOW_CONF_INVOICE_NUMBER"],
        mkRat 23 30⟩ := by
  have hb : 0 ≤ overallConfidence inv3w ∧ overallConfidence inv3w ≤ 1 := by
    rw [overall_inv3w]
    constructor <;> norm_num [Rat.mkRat_eq_div]
  rw [route_ok_of hb, codes_inv3w, overall_inv3w, if_neg (by decide)]

/-- C5: for every invoice record, the ValidationResult returned by validate
has passed equal to true exactly when its errors list is empty,
independent of how many warnings were recorded. -/
theorem C5_passed_iff_no_errors (cfg : ValidatorCfg) (inv : InvoiceSchema)
    (r : ValidationResult) (h : validate cfg inv = Except.ok r) :
    r.passed = true ↔ r.errors = [] := by
  obtain ⟨r4, r5, _, _, hr⟩ := validate_ok_elim h
  subst hr
  simp [validateValue, List.isEmpty_iff]

/-- Witness for C5 at a concrete record. -/
theorem C5_passed_iff_no_errors_witness :
    ValidationResult.passed valAllTrue = true ↔ ValidationResult.errors valAllTrue = [] :=
  C5_passed_iff_no_errors defaultCfg invAllGood valAllTrue val_invAllGood

/-- C2: route returns AUTO_POST exactly when the accumulated reason codes
are empty and the aggregate confidence is at least the low-confidence
threshold; in every other case it returns NEEDS_REVIEW. -/
theorem C2_auto_post_iff (cfg : ValidatorCfg) (inv : InvoiceSchema)
    (validation : ValidationResult) (d : RoutingDecision)
    (h : route cfg inv validation = Except.ok d) :
    (d.outcome = "AUTO_POST" ↔
      d.reasonCodes = [] ∧ cfg.lowConfidenceThreshold ≤ d.confidenceScore) ∧
    (d.outcome = "AUTO_POST" ∨ d.outcome = "NEEDS_REVIEW") := by
  obtain ⟨hc, hs, ho⟩ := route_ok_elim h
  rw [hc, hs, ho]
  by_cases hcond : routeReasonCodes cfg inv validation = [] ∧
      overallConfidence inv ≥ cfg.lowConfidenceThreshold
  · rw [if_pos hcond]
    exact ⟨⟨fun _ => ⟨hcond.1, hcond.2⟩, fun _ => rfl⟩, Or.inl rfl⟩
  · rw [if_neg hcond]
    refine ⟨⟨fun hne => absurd hne (by decide), fun hcc => absurd ⟨hcc.1, hcc.2⟩ hcond⟩,
      Or.inr rfl⟩

/-- Witness for C2 at a concrete record and validation result. -/
theorem C2_auto_post_iff_witness :
    (RoutingDecision.outcome ⟨"AUTO_POST", [], mkRat 9 10⟩ = "AUTO_POST" ↔
      RoutingDecision.reasonCodes ⟨"AUTO_POST", [], mkRat 9 10⟩ = [] ∧
        defaultCfg.lowConfidenceThreshold ≤
          RoutingDecision.confidenceScore ⟨"AUTO_POST", [], mkRat 9 10⟩) ∧
    (RoutingDecision.outcome ⟨"AUTO_POST", [], mkRat 9 10⟩ = "AUTO_POST" ∨
      RoutingDecision.outcome ⟨"AUTO_POST", [], mkRat 9 10⟩ = "NEEDS_REVIEW") :=
  C2_auto_post_iff defaultCfg invAllGood valAllTrue ⟨"AUTO_POST", [], mkRat 9 10⟩
    route_invAllGood

/-- C7: the aggregate confidence equals the arithmetic mean of the present
critical fields' confidences — absent fields contribute to neither the sum
nor the count — and equals 0 when none of the three is present. -/
theorem C7_confidence_is_mean (cfg : ValidatorCfg) (inv : InvoiceSchema)
    (validation : ValidationResult) (d : RoutingDecision)
    (h : route cfg inv validation = Except.ok d) :
    ((criticalFields.filter fun f => (inv.getField f).isSome) = [] →
        d.confidenceScore = 0) ∧
    ((criticalFields.filter fun f => (inv.getField f).isSome) ≠ [] →
        d.confidenceScore =
          ((criticalFields.filter fun f => (inv.getField f).isSome).map fun f =>
              ((inv.getField f).map FieldAudit.confidence).getD 0).sum /
            (((criticalFields.filter fun f => (inv.getField f).isSome).length : ℚ))) := by
  obtain ⟨_, hs, _⟩ := route_ok_elim h
  rw [hs]
  have key : criticalConfidences inv =
      (criticalFields.filter fun f => (inv.getField f).isSome).map fun f =>
        ((inv.getField f).map FieldAudit.confidence).getD 0 := by
    unfold criticalConfidences
    rw [filterMap_eq_filter_map _ 0]
    simp [Option.isSome_map]
  constructor
  · intro hemp
    unfold overallConfidence
    rw [if_pos (by rw [key, hemp]; rfl)]
  · intro hne
    unfold overallConfidence
    rw [if_neg (by rw [key]; simpa using hne), key, List.length_map]

/-- Witness for C7 at a concrete record. -/
theorem C7_confidence_is_mean_witness :
    ((criticalFields.filter fun f => (invAllGood.getField f).isSome) = [] →
        RoutingDecision.confidenceScore ⟨"AUTO_POST", [], mkRat 9 10⟩ = 0) ∧
    ((criticalFields.filter fun f => (invAllGood.getField f).isSome) ≠ [] →
        RoutingDecision.confidenceScore ⟨"AUTO_POST", [], mkRat 9 10⟩ =
          ((criticalFields.filter fun f => (invAllGood.getField f).isSome).map fun f =>
              ((invAllGood.getField f).map FieldAudit.confidence).getD 0).sum /
            (((criticalFields.filter fun f => (invAllGood.getField f).isSome).length : ℚ))) :=
  C7_confidence_is_mean defaultCfg invAllGood valAllTrue ⟨"AUTO_POST", [], mkRat 9 10⟩
    route_invAllGood

/-- C10: under the schema invariant that every present slot's confidence is
in the unit interval, routing succeeds and the decision's aggregate
confidence is in the unit interval, so the RoutingDecision construction
never fails on this account. -/
theorem C10_route_confidence_bounded (cfg : ValidatorCfg) (inv : InvoiceSchema)
    (validation : ValidationResult)
    (h : ∀ f fa, inv.getField f = some fa → 0 ≤ fa.confidence ∧ fa.confidence ≤ 1) :
    exceptOk (route cfg inv validation) = true ∧
    ∀ d, route cfg inv validation = Except.ok d →
      0 ≤ d.confidenceScore ∧ d.confidenceScore ≤ 1 := by
  have hb := overallConfidence_mem_unit inv h
  rw [route_ok_of hb]
  refine ⟨rfl, fun d hd => ?_⟩
  injection hd with h2
  rw [← h2]
  exact hb

/-- Witness for C10 at a concrete record. -/
theorem C10_route_confidence_bounded_witness :
    exceptOk (route defaultCfg invAllGood valAllTrue) = true ∧
    (0 ≤ mkRat 9 10 ∧ mkRat 9 10 ≤ 1) := by
  have h10 := C10_route_confidence_bounded defaultCfg invAllGood valAllTrue (by
    intro f fa hf
    unfold InvoiceSchema.getField at hf
    split at hf <;>
      first
        | exact Option.noConfusion hf
        | (injection hf with h2; rw [← h2]; norm_num [sampleAudit]))
  exact ⟨h10.1, h10.2 ⟨"AUTO_POST", [], mkRat 9 10⟩ route_invAllGood⟩

/-- C3 counterexample: the invoice_number slot is absent, yet route emits no
LOW_CONFIDENCE code and no combined LOW_CONF code at all — the absent slot
is not collected into the low-confidence set, contradicting the claim that
absence is disqualifying. -/
theorem C3_counterexample :
    inv3.invoiceNumber = Option.none ∧
    route defaultCfg inv3 valAllTrue = Except.ok ⟨"AUTO_POST", [], mkRat 9 10⟩ :=
  ⟨rfl, route_inv3⟩

/-- C3 (amended): route collects exactly the present critical fields whose
confidence is below the threshold — an absent slot is skipped, not
collected — and appends LOW_CONFIDENCE plus the single combined
upper-cased underscore-joined code exactly when that set is non-empty. -/
theorem C3_low_confidence_codes (cfg : ValidatorCfg) (inv : InvoiceSchema)
    (validation : ValidationResult) (d : RoutingDecision)
    (h : route cfg inv validation = Except.ok d) :
    (∀ f, f ∈ lowConfidenceFields cfg inv ↔
        f ∈ criticalFields ∧ ∃ fa, inv.getField f = some fa ∧
          fa.confidence < cfg.lowConfidenceThreshold) ∧
    (lowConfidenceFields cfg inv = [] → "LOW_CONFIDENCE" ∉ d.reasonCodes) ∧
    (lowConfidenceFields cfg inv ≠ [] →
        "LOW_CONFIDENCE" ∈ d.reasonCodes ∧
        ("LOW_CONF_" ++ asciiUpper (String.intercalate "_" (lowConfidenceFields cfg inv)))
          ∈ d.reasonCodes) := by
  obtain ⟨hc, _, _⟩ := route_ok_elim h
  refine ⟨?_, ?_, ?_⟩
  · intro f
    unfold lowConfidenceFields
    rw [List.mem_filter]
    constructor
    · rintro ⟨hmem, hp⟩
      refine ⟨hmem, ?_⟩
      cases hg : inv.getField f with
      | none => rw [hg] at hp; exact Bool.noConfusion hp
      | some fa =>
          rw [hg] at hp
          exact ⟨fa, rfl, of_decide_eq_true hp⟩
    · rintro ⟨hmem, fa, hfa, hlt⟩
      refine ⟨hmem, ?_⟩
      rw [hfa]
      exact decide_eq_true hlt
  · intro hemp
    rw [hc]
    unfold routeReasonCodes
    rw [hemp, if_neg (not_not_intro rfl)]
    repeat' split
    all_goals decide
  · intro hne
    rw [hc]
    unfold routeReasonCodes
    rw [if_pos hne]
    constructor
    · simp [List.mem_append]
    · simp [List.mem_append]

/-- Witness for the amended C3 at a concrete record. -/
theorem C3_low_confidence_codes_witness :
    "LOW_CONFIDENCE" ∈ ["LOW_CONFIDENCE", "LOW_CONF_INVOICE_NUMBER"] ∧
    "LOW_CONF_INVOICE_NUMBER" ∈ ["LOW_CONFIDENCE", "LOW_CONF_INVOICE_NUMBER"] := by
  have h := C3_low_confidence_codes defaultCfg inv3w valAllTrue
      ⟨"NEEDS_REVIEW", ["LOW_CONFIDENCE", "LOW_CONF_INVOICE_NUMBER"], mkRat 23 30⟩
      route_inv3w
  have h3 := h.2.2 (by decide)
  exact ⟨h3.1, h3.2⟩

/-- Reduction of the total-threshold check on an absent total slot. -/
theorem checkTotalThreshold_none {cfg : ValidatorCfg} {inv : InvoiceSchema}
    (h1 : inv.total = Option.none) : checkTotalThreshold cfg inv = Except.ok (true, []) := by
  unfold checkTotalThreshold
  rw [h1]

/-- C6: reconciliation is skipped (true) when the subtotal, tax or total
slot is absent; otherwise, with falsy numeric sub-values coerced to 0.0
and the per-currency tolerance defaulting to 0.01 (also for unknown
currencies), it returns false with the hard error reporting the specific
numbers and the difference exactly when the absolute difference between
subtotal + tax and total exceeds the tolerance. -/
theorem C6_reconciliation (cfg : ValidatorCfg) (inv : InvoiceSchema) :
    ((inv.subtotal = Option.none ∨ inv.tax = Option.none ∨ inv.total = Option.none) →
        checkReconciliation cfg inv = Except.ok (true, [])) ∧
    (∀ st tx tt s t u, inv.subtotal = some st → inv.tax = some tx → inv.total = some tt →
      coerceOrZero st.value = Except.ok s → coerceOrZero tx.value = Except.ok t →
      coerceOrZero tt.value = Except.ok u →
      ((|s + t - u| >
          (alookup (reconCurrency inv) cfg.currencyTolerance).getD (mkRat 1 100) →
        checkReconciliation cfg inv = Except.ok (false,
          [reconMsg s t u
            ((alookup (reconCurrency inv) cfg.currencyTolerance).getD (mkRat 1 100))])) ∧
       (¬ (|s + t - u| >
            (alookup (reconCurrency inv) cfg.currencyTolerance).getD (mkRat 1 100)) →
        checkReconciliation cfg inv = Except.ok (true, [])))) := by
  constructor
  · intro habs
    cases hsub : inv.subtotal with
    | none => unfold checkReconciliation; rw [hsub]
    | some st =>
        cases htax : inv.tax with
        | none => unfold checkReconciliation; rw [hsub, htax]
        | some tx =>
            cases htot : inv.total with
            | none => unfold checkReconciliation; rw [hsub, htax, htot]
            | some tt =>
                exfalso
                rcases habs with h | h | h
                · rw [hsub] at h; exact Option.noConfusion h
                · rw [htax] at h; exact Option.noConfusion h
                · rw [htot] at h; exact Option.noConfusion h
  · intro st tx tt s t u h1 h2 h3 hcs hct hcu
    rw [checkReconciliation_eval h1 h2 h3 hcs hct hcu]
    constructor
    · intro hgt
      rw [if_pos hgt]
    · intro hle
      rw [if_neg hle]

/-- Witness for C6: subtotal 100 and tax 8 reconcile against total 108.00
under USD tolerance 0.01, and fail against total 108.02. -/
theorem C6_reconciliation_witness :
    checkReconciliation defaultCfg invAllGood = Except.ok (true, []) ∧
    (checkReconciliation defaultCfg invReconFail).map Prod.fst = Except.ok false := by
  have htol : (alookup (reconCurrency invAllGood) defaultCfg.currencyTolerance).getD
      (mkRat 1 100) = mkRat 1 100 := by decide
  have htolf : (alookup (reconCurrency invReconFail) defaultCfg.currencyTolerance).getD
      (mkRat 1 100) = mkRat 1 100 := by decide
  constructor
  · have h := ((C6_reconciliation defaultCfg invAllGood).2
      (sampleAudit (PyVal.num 100) (mkRat 9 10)) (sampleAudit (PyVal.num 8) (mkRat 9 10))
      (sampleAudit (PyVal.num 108) (mkRat 9 10)) 100 8 108 rfl rfl rfl rfl rfl rfl).2
    exact h (by rw [htol]; norm_num [Rat.mkRat_eq_div])
  · have h := ((C6_reconciliation defaultCfg invReconFail).2
      (sampleAudit (PyVal.num 100) (mkRat 9 10)) (sampleAudit (PyVal.num 8) (mkRat 9 10))
      (sampleAudit (PyVal.num (mkRat 5401 50)) (mkRat 9 10)) 100 8 (mkRat 5401 50)
      rfl rfl rfl rfl rfl rfl).1
    have hgt : |(100 : ℚ) + 8 - mkRat 5401 50| >
        (alookup (reconCurrency invReconFail) defaultCfg.currencyTolerance).getD
          (mkRat 1 100) := by
      rw [htolf]
      have he : (100 : ℚ) + 8 - mkRat 5401 50 = -(1/50) := by norm_num [Rat.mkRat_eq_div]
      rw [he, abs_neg, abs_of_pos (show (0 : ℚ) < 1/50 by norm_num)]
      norm_num [Rat.mkRat_eq_div]
    rw [h hgt]
    rfl

/-- The PO-less record still reconciles. -/
theorem recon_inv8 : checkReconciliation defaultCfg inv8 = Except.ok (true, []) := by
  have h1 : inv8.subtotal = some (sampleAudit (PyVal.num 100) (mkRat 9 10)) := rfl
  have h2 : inv8.tax = some (sampleAudit (PyVal.num 8) (mkRat 9 10)) := rfl
  have h3 : inv8.total = some (sampleAudit (PyVal.num 108) (mkRat 9 10)) := rfl
  have hcs : coerceOrZero (sampleAudit (PyVal.num 100) (mkRat 9 10)).value =
      Except.ok 100 := rfl
  have hct : coerceOrZero (sampleAudit (PyVal.num 8) (mkRat 9 10)).value =
      Except.ok 8 := rfl
  have hcu : coerceOrZero (sampleAudit (PyVal.num 108) (mkRat 9 10)).value =
      Except.ok 108 := rfl
  rw [checkReconciliation_eval h1 h2 h3 hcs hct hcu]
  have htol : (alookup (reconCurrency inv8) defaultCfg.currencyTolerance).getD
      (mkRat 1 100) = mkRat 1 100 := by decide
  rw [htol, if_neg (by norm_num [Rat.mkRat_eq_div])]

/-- The PO-less record validates with a warning only. -/
theorem val_inv8 : validate defaultCfg inv8 = Except.ok val8 := by
  unfold validate
  rw [recon_inv8, ok_bindE]
  rfl

/-- C8 counterexample: a record with the PO absent makes the po_present
check false while recording only a warning, and validation still passes —
so total_within_threshold is not the only check whose false outcome does
not imply a hard error. -/
theorem C8_counterexample :
    validate defaultCfg inv8 = Except.ok val8 ∧
    alookup "po_present" val8.checks = some false ∧
    val8.passed = true ∧ val8.errors = [] :=
  ⟨val_inv8, rfl, rfl, rfl⟩

/-- C8 (amended): total_within_threshold is skipped when the total slot or
value is absent; a coercible total above the threshold makes the check
false with a warning appended, and that false never forces passed to
false (passed tracks errors only) — but it is one of two warning-only
checks, po_present behaving the same way on an absent PO. -/
theorem C8_threshold_warning (cfg : ValidatorCfg) (inv : InvoiceSchema)
    (r : ValidationResult) (h : validate cfg inv = Except.ok r) :
    ((inv.total = Option.none ∨ (∃ fa, inv.total = some fa ∧ fa.value = PyVal.none)) →
        alookup "total_within_threshold" r.checks = some true) ∧
    (∀ fa q, inv.total = some fa → pyFloat fa.value = Except.ok q →
        q > cfg.highTotalThreshold →
        alookup "total_within_threshold" r.checks = some false ∧ r.warnings ≠ []) ∧
    (r.passed = true ↔ r.errors = []) ∧
    (inv.poNumber = Option.none →
        alookup "po_present" r.checks = some false ∧ (r.errors = [] → r.passed = true)) := by
  obtain ⟨r4, r5, h4, h5, hr⟩ := validate_ok_elim h
  subst hr
  refine ⟨?_, ?_, ?_, ?_⟩
  · intro habs
    have h51 : (true, ([] : List String)) = r5 := by
      rcases habs with habs | ⟨fa, hfa, hval⟩
      · rw [checkTotalThreshold_none habs] at h5
        injection h5
      · rw [checkTotalThreshold_some hfa, if_pos hval] at h5
        injection h5
    rw [← h51]
    rfl
  · intro fa q hfa hq hgt
    have hvne : ¬ fa.value = PyVal.none := by
      intro he
      rw [he] at hq
      exact Except.noConfusion hq
    have h51 : (false, ["High total amount: " ++ toString q]) = r5 := by
      rw [checkTotalThreshold_some hfa, if_neg hvne, hq, ok_bindE, if_pos hgt] at h5
      injection h5
    rw [← h51]
    exact ⟨rfl, by simp [validateValue]⟩
  · simp [validateValue, List.isEmpty_iff]
  · intro hpo
    have h6 : checkPoPresent inv = (false, ["PO number missing"]) := by
      unfold checkPoPresent
      rw [hpo]
    constructor
    · have halook : alookup "po_present" (validateValue cfg inv r4 r5).checks =
          some (checkPoPresent inv).1 := rfl
      rw [halook, h6]
    · intro herr
      simp only [validateValue] at herr ⊢
      rw [List.isEmpty_iff]
      exact herr

/-- The high-total record fails reconciliation. -/
theorem recon_inv8w : checkReconciliation defaultCfg inv8w =
    Except.ok (false, [reconMsg 100 8 200000 (mkRat 1 100)]) := by
  have h1 : inv8w.subtotal = some (sampleAudit (PyVal.num 100) (mkRat 9 10)) := rfl
  have h2 : inv8w.tax = some (sampleAudit (PyVal.num 8) (mkRat 9 10)) := rfl
  have h3 : inv8w.total = some (sampleAudit (PyVal.num 200000) (mkRat 9 10)) := rfl
  have hcs : coerceOrZero (sampleAudit (PyVal.num 100) (mkRat 9 10)).value =
      Except.ok 100 := rfl
  have hct : coerceOrZero (sampleAudit (PyVal.num 8) (mkRat 9 10)).value =
      Except.ok 8 := rfl
  have hcu : coerceOrZero (sampleAudit (PyVal.num 200000) (mkRat 9 10)).value =
      Except.ok 200000 := rfl
  rw [checkReconciliation_eval h1 h2 h3 hcs hct hcu]
  have htol : (alookup (reconCurrency inv8w) defaultCfg.currencyTolerance).getD
      (mkRat 1 100) = mkRat 1 100 := by decide
  rw [htol, if_pos (by norm_num [Rat.mkRat_eq_div])]

/-- The high-total record exceeds the threshold with a warning. -/
theorem threshold_inv8w : checkTotalThreshold defaultCfg inv8w =
    Except.ok (false, ["High total amount: " ++ toString (200000 : ℚ)]) := by
  rw [checkTotalThreshold_some
    (show inv8w.total = some (sampleAudit (PyVal.num 200000) (mkRat 9 10)) from rfl)]
  rw [if_neg (by decide),
    show pyFloat (sampleAudit (PyVal.num 200000) (mkRat 9 10)).value = Except.ok 200000 from
      rfl, ok_bindE, if_pos (by decide)]

/-- The high-total record validates to the expected result. -/
theorem val_inv8w : validate defaultCfg inv8w = Except.ok r8w := by
  unfold validate
  rw [recon_inv8w, ok_bindE, threshold_inv8w, ok_bindE]
  rfl

/-- Witness for the amended C8 at the concrete high-total record. -/
theorem C8_threshold_warning_witness :
    alookup "total_within_threshold" r8w.checks = some false ∧ r8w.warnings ≠ [] :=
  (C8_threshold_warning defaultCfg inv8w r8w val_inv8w).2.1
    (sampleAudit (PyVal.num 200000) (mkRat 9 10)) 200000 rfl rfl (by decide)

/-- C9: normalizing the same vendor output twice with the same pipeline and
vendor version produces records that agree everywhere — in particular in
every FieldAudit slot's value, confidence, evidence, pipeline_version,
vendor_version and vendor_field_name — apart from the extraction
timestamp: erasing the timestamp makes the two results equal. -/
theorem C9_normalize_time_independent (pv : String) (out : VendorOutput)
    (vendorName vv : String) (t1 t2 : ℤ) :
    (normalize pv out vendorName vv t1).map (fun r => { r with extractionTimestamp := 0 }) =
    (normalize pv out vendorName vv t2).map (fun r => { r with extractionTimestamp := 0 }) := by
  simp only [normalize]
  by_cases h1 : vendorName = "vendor_a"
  · rw [if_pos h1, if_pos h1]
    unfold normalizeVendorA
    cases hl : lineItemsA pv vv out.lineItems <;>
      cases hs : slotsA pv vv out.fields <;> rfl
  · rw [if_neg h1, if_neg h1]
    by_cases h2 : vendorName = "vendor_b"
    · rw [if_pos h2, if_pos h2]
      unfold normalizeVendorB
      cases hs : slotsB pv vv out.financial <;>
        cases hl : lineItemsB pv vv out.items <;> rfl
    · rw [if_neg h2, if_neg h2]
      unfold normalizeVendorA
      cases hl : lineItemsA pv vv out.lineItems <;>
        cases hs : slotsA pv vv out.fields <;> rfl

/-- C4 counterexample: through the vendor A path a non-numeric subtotal
string is not coerced and not dropped — the slot is present and still
holds the string abc, contradicting coerced-to-float-or-absent for every
vendor shape. -/
theorem C4_counterexample :
    (normalize "1.0.0" outAbc "vendor_a" "2.1" 0).map InvoiceSchema.subtotal =
      Except.ok (some ⟨PyVal.str "abc", mkRat 9 10, some ⟨1⟩, "1.0.0", "2.1",
        some "subtotal"⟩) := by
  rfl

/-- C4 (amended): only the vendor B path coerces the numeric canonical
fields subtotal, tax and total with float(), a failed coercion leaving the
slot absent; the vendor A path and the unknown-vendor fallback store the
vendor value verbatim with no coercion attempted. -/
theorem C4_numeric_coercion (pv vv : String) (out : VendorOutput) (now : ℤ) :
    (∀ rec, normalize pv out "vendor_b" vv now = Except.ok rec →
        ((∀ fa, rec.subtotal = some fa → ∃ q, fa.value = PyVal.num q) ∧
         (∀ fa, rec.tax = some fa → ∃ q, fa.value = PyVal.num q) ∧
         (∀ fa, rec.total = some fa → ∃ q, fa.value = PyVal.num q)) ∧
        ((∀ fd, alookup "amount_before_tax" out.financial = some fd →
            pyFloatValue fd.text = Option.none → rec.subtotal = Option.none) ∧
         (∀ fd, alookup "tax_amount" out.financial = some fd →
            pyFloatValue fd.text = Option.none → rec.tax = Option.none) ∧
         (∀ fd, alookup "amount_due" out.financial = some fd →
            pyFloatValue fd.text = Option.none → rec.total = Option.none))) ∧
    (∀ vendorName rec, vendorName ≠ "vendor_b" →
        normalize pv out vendorName vv now = Except.ok rec →
        rec.subtotal = slotAValue pv vv out.fields "subtotal" ∧
        rec.tax = slotAValue pv vv out.fields "tax" ∧
        rec.total = slotAValue pv vv out.fields "total") := by
  constructor
  · intro rec hrec
    simp only [normalize] at hrec
    rw [if_pos trivial] at hrec
    unfold normalizeVendorB at hrec
    obtain ⟨s, hsl, hrec⟩ := bindE_ok_elim hrec
    obtain ⟨li, hli, hrec⟩ := bindE_ok_elim hrec
    injection hrec with hmap
    have hs := slotsB_ok_elim hsl
    subst hs
    rw [← hmap]
    refine ⟨⟨?_, ?_, ?_⟩, ?_, ?_, ?_⟩
    · intro fa hf
      exact slotBValue_num hf rfl
    · intro fa hf
      exact slotBValue_num hf rfl
    · intro fa hf
      exact slotBValue_num hf rfl
    · intro fd hl hp
      exact slotBValue_absent rfl hl hp
    · intro fd hl hp
      exact slotBValue_absent rfl hl hp
    · intro fd hl hp
      exact slotBValue_absent rfl hl hp
  · intro vendorName rec hne hrec
    simp only [normalize] at hrec
    by_cases ha : vendorName = "vendor_a"
    · rw [if_pos ha] at hrec
      unfold normalizeVendorA at hrec
      obtain ⟨li, hli, hrec⟩ := bindE_ok_elim hrec
      obtain ⟨s, hsl, hmap⟩ := map_ok_elim hrec
      have hs := slotsA_ok_elim hsl
      subst hs
      rw [← hmap]
      exact ⟨rfl, rfl, rfl⟩
    · rw [if_neg ha, if_neg hne] at hrec
      unfold normalizeVendorA at hrec
      obtain ⟨li, hli, hrec⟩ := bindE_ok_elim hrec
      obtain ⟨s, hsl, hmap⟩ := map_ok_elim hrec
      have hs := slotsA_ok_elim hsl
      subst hs
      rw [← hmap]
      exact ⟨rfl, rfl, rfl⟩

/-- Witness for the amended C4: vendor B leaves the non-coercible subtotal
absent, while the fallback path stores the same string verbatim. -/
theorem C4_numeric_coercion_witness :
    recB4.subtotal = Option.none ∧
    recA4.subtotal = slotAValue "1.0.0" "2.1" outAB.fields "subtotal" := by
  have h := C4_numeric_coercion "1.0.0" "2.1" outAB 0
  constructor
  · exact (h.1 recB4 (by rfl)).2.1 ⟨PyVal.str "abc", some (mkRat 9 10)⟩ rfl rfl
  · exact (h.2 "other" recA4 (by decide) (by rfl)).1

/-- C1 counterexample: a truthy non-numeric subtotal string makes the
reconciliation check's float() raise a ValueError, so the core pipeline
aborts instead of producing a RoutingDecision; and a line item whose
amount is a non-coercible string makes normalize itself raise a pydantic
ValidationError even though no value reaches the three numeric slots and
every confidence is in range. -/
theorem C1_counterexample :
    pipeline "1.0.0" defaultCfg outBad "vendor_a" "2.1" 0 =
      Except.error "ValueError: could not convert string to float: abc" ∧
    normalize "1.0.0" outBadItem "vendor_a" "2.1" 0 =
      Except.error "ValidationError: input is not a valid number" :=
  ⟨rfl, rfl⟩

/-- The tail of the pipeline succeeds on a record with bounded confidences
and benign numeric values. -/
theorem pipelineTail_ok {cfg : ValidatorCfg} {rec : InvoiceSchema}
    (hconf : ∀ f fa, rec.getField f = some fa → 0 ≤ fa.confidence ∧ fa.confidence ≤ 1)
    (hs : ∀ fa, rec.subtotal = some fa → valueOKb fa.value = true)
    (ht : ∀ fa, rec.tax = some fa → valueOKb fa.value = true)
    (hu : ∀ fa, rec.total = some fa → valueOKb fa.value = true) :
    exceptOk ((validate cfg rec).bind fun validation => route cfg rec validation) = true := by
  obtain ⟨r, hr⟩ := validate_ok_of hs ht hu
  rw [hr, ok_bindE, route_ok_of (overallConfidence_mem_unit rec hconf)]
  rfl

/-- Every result of the dynamic field lookup is either absent or one of the
nine named slots. -/
theorem getField_mem (inv : InvoiceSchema) (f : String) :
    inv.getField f = Option.none ∨ inv.getField f = inv.invoiceNumber ∨
    inv.getField f = inv.invoiceDate ∨ inv.getField f = inv.supplierName ∨
    inv.getField f = inv.supplierId ∨ inv.getField f = inv.currency ∨
    inv.getField f = inv.subtotal ∨ inv.getField f = inv.tax ∨
    inv.getField f = inv.total ∨ inv.getField f = inv.poNumber := by
  unfold InvoiceSchema.getField
  split
  all_goals simp

set_option maxHeartbeats 2000000 in
/-- Confidence bounds transfer from a vendor A fields mapping to the built
record. -/
theorem recA_conf {pv vv d name : String} {now : ℤ} {li : Option (List LineItem)}
    {fields : List (String × FieldData)}
    (hconfA : ∀ p ∈ fields, 0 ≤ p.2.confidence.getD 0 ∧ p.2.confidence.getD 0 ≤ 1) :
    ∀ f fa, (buildRecord (slotsAValue pv vv fields) d now name li).getField f = some fa →
      0 ≤ fa.confidence ∧ fa.confidence ≤ 1 := by
  intro f fa hf
  rcases getField_mem (buildRecord (slotsAValue pv vv fields) d now name li) f with
    h | h | h | h | h | h | h | h | h | h <;> rw [h] at hf
  · exact Option.noConfusion hf
  all_goals
    obtain ⟨fd, hl, _, hc⟩ := slotAValue_elim hf
    rw [hc]
    exact hconfA _ (alookup_mem hl)

/-- Benign numeric values transfer from a vendor A fields mapping to the
built record's subtotal, tax and total slots. -/
theorem recA_numvals {pv vv d name : String} {now : ℤ} {li : Option (List LineItem)}
    {fields : List (String × FieldData)}
    (hnum : ∀ f ∈ ["subtotal", "tax", "total"],
        ((alookup f fields).all fun fd => valueOKb fd.value) = true) :
    (∀ fa, (buildRecord (slotsAValue pv vv fields) d now name li).subtotal = some fa →
        valueOKb fa.value = true) ∧
    (∀ fa, (buildRecord (slotsAValue pv vv fields) d now name li).tax = some fa →
        valueOKb fa.value = true) ∧
    (∀ fa, (buildRecord (slotsAValue pv vv fields) d now name li).total = some fa →
        valueOKb fa.value = true) := by
  refine ⟨?_, ?_, ?_⟩ <;> intro fa hf
  · obtain ⟨fd, hl, hv, _⟩ := slotAValue_elim hf
    have h := hnum "subtotal" (by simp)
    rw [hl] at h
    rw [hv]
    exact h
  · obtain ⟨fd, hl, hv, _⟩ := slotAValue_elim hf
    have h := hnum "tax" (by simp)
    rw [hl] at h
    rw [hv]
    exact h
  · obtain ⟨fd, hl, hv, _⟩ := slotAValue_elim hf
    have h := hnum "total" (by simp)
    rw [hl] at h
    rw [hv]
    exact h

set_option maxHeartbeats 2000000 in
/-- Confidence bounds transfer from a vendor B financial mapping to the
built record. -/
theorem recB_conf {pv vv d name : String} {now : ℤ} {li : Option (List LineItem)}
    {financial : List (String × BFieldData)}
    (hconfB : ∀ p ∈ financial, 0 ≤ p.2.score.getD 0 ∧ p.2.score.getD 0 ≤ 1) :
    ∀ f fa, (buildRecord (slotsBValue pv vv financial) d now name li).getField f = some fa →
      0 ≤ fa.confidence ∧ fa.confidence ≤ 1 := by
  intro f fa hf
  rcases getField_mem (buildRecord (slotsBValue pv vv financial) d now name li) f with
    h | h | h | h | h | h | h | h | h | h <;> rw [h] at hf
  · exact Option.noConfusion hf
  all_goals
    obtain ⟨fd, hl, hc⟩ := slotBValue_elim hf
    rw [hc]
    exact hconfB _ (alookup_mem hl)

/-- The numeric slots of a vendor B record always hold numbers, which are
benign for the validator's coercions. -/
theorem recB_numvals {pv vv d name : String} {now : ℤ} {li : Option (List LineItem)}
    {financial : List (String × BFieldData)} :
    (∀ fa, (buildRecord (slotsBValue pv vv financial) d now name li).subtotal = some fa →
        valueOKb fa.value = true) ∧
    (∀ fa, (buildRecord (slotsBValue pv vv financial) d now name li).tax = some fa →
        valueOKb fa.value = true) ∧
    (∀ fa, (buildRecord (slotsBValue pv vv financial) d now name li).total = some fa →
        valueOKb fa.value = true) := by
  refine ⟨?_, ?_, ?_⟩ <;> intro fa hf
  · obtain ⟨q, hq⟩ := slotBValue_num hf rfl
    rw [hq]
    rfl
  · obtain ⟨q, hq⟩ := slotBValue_num hf rfl
    rw [hq]
    rfl
  · obtain ⟨q, hq⟩ := slotBValue_num hf rfl
    rw [hq]
    rfl

/-- A succeeding Except computation has a success value. -/
theorem exceptOk_elim {α : Type} {x : Except String α} (h : exceptOk x = true) :
    ∃ a, x = Except.ok a := by
  cases x with
  | ok a => exact ⟨a, rfl⟩
  | error e => exact Bool.noConfusion h

/-- A line-item loop succeeds when every item passes its pydantic
constructions. -/
theorem buildLineItems_ok_of {pv vv dk qk pk ak ck : String} {items : List RawItem}
    (h : items.all (itemOKb pv vv dk qk pk ak ck) = true) :
    ∃ lis, buildLineItems pv vv dk qk pk ak ck items = Except.ok lis := by
  induction items with
  | nil => exact ⟨[], rfl⟩
  | cons item rest ih =>
      rw [List.all_cons, Bool.and_eq_true] at h
      obtain ⟨li, hli⟩ := exceptOk_elim h.1
      obtain ⟨lis, hlis⟩ := ih h.2
      refine ⟨li :: lis, ?_⟩
      unfold buildLineItems
      rw [hli, ok_bindE, hlis]
      rfl

/-- The vendor A line-item block succeeds when every present item passes
its pydantic constructions. -/
theorem lineItemsA_ok_of {pv vv : String} {lineItems : Option (List RawItem)}
    (h : (lineItems.getD []).all
      (itemOKb pv vv "description" "quantity" "unit_price" "amount" "confidence") = true) :
    ∃ li, lineItemsA pv vv lineItems = Except.ok li := by
  cases lineItems with
  | none => exact ⟨Option.none, rfl⟩
  | some items =>
      obtain ⟨lis, hlis⟩ := buildLineItems_ok_of h
      have hlis2 : buildLineItems pv vv "description" "quantity" "unit_price" "amount"
          "confidence" items = Except.ok lis := hlis
      refine ⟨some lis, ?_⟩
      show Except.map some (buildLineItems pv vv "description" "quantity" "unit_price"
        "amount" "confidence" items) = Except.ok (some lis)
      rw [hlis2]
      rfl

/-- The vendor B items block succeeds when every item passes its pydantic
constructions. -/
theorem lineItemsB_ok_of {pv vv : String} {items : List RawItem}
    (h : items.all (itemOKb pv vv "desc" "qty" "price" "line_total" "score") = true) :
    ∃ li, lineItemsB pv vv items = Except.ok li := by
  cases items with
  | nil => exact ⟨Option.none, rfl⟩
  | cons item rest =>
      obtain ⟨lis, hlis⟩ := buildLineItems_ok_of h
      refine ⟨some lis, ?_⟩
      show Except.map some (buildLineItems pv vv "desc" "qty" "price" "line_total" "score"
        (item :: rest)) = Except.ok (some lis)
      rw [hlis]
      rfl

/-- C1 (amended): the pipeline can abort — a vendor confidence outside the
unit interval fails a pydantic FieldAudit construction, a non-coercible
line-item amount, quantity or price fails the pydantic LineItem
construction, and a truthy non-coercible numeric string makes a validator
float() raise — but whenever every vendor-reported confidence lies in the
unit interval, every value reaching the subtotal, tax and total slots is
None or float()-coercible, and every raw line item passes the line-item
pydantic constructions, normalize never raises and validate followed by
route completes with a RoutingDecision, for every vendor name. -/
theorem C1_pipeline_total (pv : String) (cfg : ValidatorCfg) (out : VendorOutput)
    (vendorName vv : String) (now : ℤ)
    (hconfA : ∀ p ∈ out.fields, 0 ≤ p.2.confidence.getD 0 ∧ p.2.confidence.getD 0 ≤ 1)
    (hconfB : ∀ p ∈ out.financial, 0 ≤ p.2.score.getD 0 ∧ p.2.score.getD 0 ≤ 1)
    (hnum : ∀ f ∈ ["subtotal", "tax", "total"],
        ((alookup f out.fields).all fun fd => valueOKb fd.value) = true)
    (hitemsA : (out.lineItems.getD []).all
        (itemOKb pv vv "description" "quantity" "unit_price" "amount" "confidence") = true)
    (hitemsB : out.items.all (itemOKb pv vv "desc" "qty" "price" "line_total" "score")
        = true) :
    exceptOk (pipeline pv cfg out vendorName vv now) = true := by
  unfold pipeline
  simp only [normalize]
  by_cases h1 : vendorName = "vendor_a"
  · rw [if_pos h1]
    unfold normalizeVendorA
    obtain ⟨li, hli⟩ := lineItemsA_ok_of hitemsA
    rw [hli, ok_bindE, slotsA_ok_of hconfA]
    exact pipelineTail_ok (recA_conf hconfA) (recA_numvals hnum).1
      (recA_numvals hnum).2.1 (recA_numvals hnum).2.2
  · rw [if_neg h1]
    by_cases h2 : vendorName = "vendor_b"
    · rw [if_pos h2]
      unfold normalizeVendorB
      obtain ⟨li, hli⟩ := lineItemsB_ok_of hitemsB
      rw [slotsB_ok_of hconfB, ok_bindE, hli, ok_bindE]
      exact pipelineTail_ok (recB_conf hconfB) recB_numvals.1
        recB_numvals.2.1 recB_numvals.2.2
    · rw [if_neg h2]
      unfold normalizeVendorA
      obtain ⟨li, hli⟩ := lineItemsA_ok_of hitemsA
      rw [hli, ok_bindE, slotsA_ok_of hconfA]
      exact pipelineTail_ok (recA_conf hconfA) (recA_numvals hnum).1
        (recA_numvals hnum).2.1 (recA_numvals hnum).2.2

/-- Witness for the amended C1 at a concrete benign vendor output with one
line item. -/
theorem C1_pipeline_total_witness :
    exceptOk (pipeline "1.0.0" defaultCfg outGood "vendor_a" "2.1" 0) = true :=
  C1_pipeline_total "1.0.0" defaultCfg outGood "vendor_a" "2.1" 0
    (by decide) (by decide) (by decide) (by decide) (by decide)

end IDP
